import Mathlib

/- Shallow embedding of src/index.js: a minimal Pusher-compatible pub/sub
   server (class PusherDO).  JSON values are modelled structurally; the two
   platform primitives used by the source, JSON.parse on strings and
   HMAC-SHA256 (crypto.subtle), are abstract parameters collected in `Prim`.
   Each `ws.send(JSON.stringify(o))` call is modelled as a structured frame
   tagged with the recipient's socket id, and JS exceptions escaping an
   operation are modelled by returning the state unchanged with no sends,
   which is exact because every throw site in the source is reached before
   any mutation or send of that operation. -/

/-- A parsed JSON value (JS numbers are only ever compared for truthiness or
    printed here, so an integer model suffices). -/
inductive Json where
  | null : Json
  | bool : Bool → Json
  | num : Int → Json
  | str : String → Json
  | arr : List Json → Json
  | obj : List (String × Json) → Json

mutual

/-- Structural equality test on JSON values. -/
def jsonEq : Json → Json → Bool
  | Json.null, Json.null => true
  | Json.bool a, Json.bool b => a == b
  | Json.num a, Json.num b => a == b
  | Json.str a, Json.str b => a == b
  | Json.arr xs, Json.arr ys => jsonEqList xs ys
  | Json.obj fs, Json.obj gs => jsonEqFields fs gs
  | _, _ => false

def jsonEqList : List Json → List Json → Bool
  | [], [] => true
  | x :: xs, y :: ys => jsonEq x y && jsonEqList xs ys
  | _, _ => false

def jsonEqFields : List (String × Json) → List (String × Json) → Bool
  | [], [] => true
  | (k, v) :: fs, (k2, v2) :: gs => k == k2 && jsonEq v v2 && jsonEqFields fs gs
  | _, _ => false

end

mutual

theorem jsonEq_iff : ∀ a b : Json, jsonEq a b = true ↔ a = b
  | Json.null, b => by cases b <;> simp [jsonEq]
  | Json.bool x, b => by cases b <;> simp [jsonEq]
  | Json.num x, b => by cases b <;> simp [jsonEq]
  | Json.str x, b => by cases b <;> simp [jsonEq]
  | Json.arr xs, b => by
      cases b <;> simp [jsonEq]
      exact jsonEqList_iff xs _
  | Json.obj fs, b => by
      cases b <;> simp [jsonEq]
      exact jsonEqFields_iff fs _

theorem jsonEqList_iff : ∀ xs ys : List Json, jsonEqList xs ys = true ↔ xs = ys
  | [], ys => by cases ys <;> simp [jsonEqList]
  | x :: xs, [] => by simp [jsonEqList]
  | x :: xs, y :: ys => by
      simp only [jsonEqList, Bool.and_eq_true, List.cons.injEq]
      exact and_congr (jsonEq_iff x y) (jsonEqList_iff xs ys)

theorem jsonEqFields_iff :
    ∀ fs gs : List (String × Json), jsonEqFields fs gs = true ↔ fs = gs
  | [], gs => by cases gs <;> simp [jsonEqFields]
  | f :: fs, [] => by cases f; simp [jsonEqFields]
  | (k, v) :: fs, (k2, v2) :: gs => by
      simp only [jsonEqFields, Bool.and_eq_true, List.cons.injEq, Prod.mk.injEq,
        beq_iff_eq]
      rw [jsonEq_iff v v2, jsonEqFields_iff fs gs]

end

instance : DecidableEq Json := fun a b => decidable_of_iff _ (jsonEq_iff a b)

/-- JS property access `v.k` on a parsed-JSON value: the field of an object,
    `undefined` (`none`) otherwise.  Property access on `null` throws in JS;
    call sites below treat the `Json.null` case separately whenever the throw
    is observable. -/
def jget : Json → String → Option Json
  | Json.obj fields, k => (fields.find? (fun f => f.1 = k)).map (fun f => f.2)
  | _, _ => none

/-- JS truthiness of a possibly-`undefined` value. -/
def jsTruthy : Option Json → Bool
  | none => false
  | some Json.null => false
  | some (Json.bool b) => b
  | some (Json.num n) => n != 0
  | some (Json.str s) => s != ""
  | some (Json.arr _) => true
  | some (Json.obj _) => true

mutual

/-- JS string coercion `String(v)` (template-literal interpolation) of a
    parsed-JSON value. -/
def jsTemplateStr : Json → String
  | Json.null => "null"
  | Json.bool b => cond b "true" "false"
  | Json.num n => toString n
  | Json.str s => s
  | Json.arr xs => String.intercalate "," (jsTemplateStrElems xs)
  | Json.obj _ => "[object Object]"

/-- Array elements under `Array.prototype.toString`; `null` elements print
    as the empty string. -/
def jsTemplateStrElems : List Json → List String
  | [] => []
  | Json.null :: rest => "" :: jsTemplateStrElems rest
  | Json.bool b :: rest => (cond b "true" "false") :: jsTemplateStrElems rest
  | Json.num n :: rest => toString n :: jsTemplateStrElems rest
  | Json.str s :: rest => s :: jsTemplateStrElems rest
  | Json.arr xs :: rest =>
      String.intercalate "," (jsTemplateStrElems xs) :: jsTemplateStrElems rest
  | Json.obj _ :: rest => "[object Object]" :: jsTemplateStrElems rest

end

/-- The property key `Object.fromEntries` uses for a Map key (`String(key)`,
    with `undefined` printing as "undefined"). -/
def jsPropKey : Option Json → String
  | none => "undefined"
  | some v => jsTemplateStr v

/-- Lowercase hex digit, as produced by `Number.prototype.toString(16)`. -/
def hexDigit (n : Nat) : Char :=
  if n < 10 then Char.ofNat (48 + n) else Char.ofNat (87 + n)

/-- `b.toString(16).padStart(2, "0")` for a byte value. -/
def hexByte (b : Nat) : String :=
  String.mk [hexDigit (b / 16 % 16), hexDigit (b % 16)]

/-- JSON.stringify escaping of one character. -/
def jsonQuoteChar (c : Char) : String :=
  if c = Char.ofNat 34 then "\\\""
  else if c = Char.ofNat 92 then "\\\\"
  else if c = Char.ofNat 8 then "\\b"
  else if c = Char.ofNat 9 then "\\t"
  else if c = Char.ofNat 10 then "\\n"
  else if c = Char.ofNat 12 then "\\f"
  else if c = Char.ofNat 13 then "\\r"
  else if c.toNat < 32 then "\\u00" ++ hexByte c.toNat
  else String.singleton c

/-- JSON.stringify of a string value. -/
def jsonQuote (s : String) : String :=
  "\"" ++ String.join (s.toList.map jsonQuoteChar) ++ "\""

mutual

/-- `JSON.stringify` of a parsed-JSON value. -/
def jsonStringify : Json → String
  | Json.null => "null"
  | Json.bool b => cond b "true" "false"
  | Json.num n => toString n
  | Json.str s => jsonQuote s
  | Json.arr xs => "[" ++ String.intercalate "," (jsonStringifyElems xs) ++ "]"
  | Json.obj fs => "\x7b" ++ String.intercalate "," (jsonStringifyFields fs) ++ "\x7d"

def jsonStringifyElems : List Json → List String
  | [] => []
  | x :: rest => jsonStringify x :: jsonStringifyElems rest

def jsonStringifyFields : List (String × Json) → List String
  | [] => []
  | f :: rest => (jsonQuote f.1 ++ ":" ++ jsonStringify f.2) :: jsonStringifyFields rest

end

/-- The platform primitives the source calls: `JSON.parse` on a string
    (`none` models a SyntaxError throw) and the raw HMAC-SHA256 signature
    bytes computed through `crypto.subtle` with a given secret and message. -/
structure Prim where
  jsonParse : String → Option Json
  hmacSHA256 : String → String → List Nat

/-- src/index.js `hmac`: lowercase hex encoding of the HMAC-SHA256 bytes. -/
def hmac (ext : Prim) (secret msg : String) : String :=
  String.join ((ext.hmacSHA256 secret msg).map hexByte)

/-- `JSON.parse(v)` applied to an arbitrary JS value: a string argument is
    parsed directly, any other argument is first coerced with `String(v)`
    (`undefined` coerces to "undefined"). -/
def jsonParseJS (ext : Prim) : Option Json → Option Json
  | some (Json.str s) => ext.jsonParse s
  | some v => ext.jsonParse (jsTemplateStr v)
  | none => ext.jsonParse "undefined"

/-- The environment bindings read by PusherDO. -/
structure Env where
  PUSHER_APP_KEY : String
  PUSHER_APP_SECRET : String

/-- `String.prototype.startsWith`, computed on the character lists (kernel
    reducible, unlike `String.startsWith`). -/
def jsStartsWith (s p : String) : Bool :=
  p.toList.isPrefixOf s.toList

/-- Split a character list at every occurrence of `sep` (the list returned is
    never empty). -/
def splitOnCharList (sep : Char) : List Char -> List (List Char)
  | [] => [[]]
  | c :: rest =>
      let r := splitOnCharList sep rest
      if c = sep then [] :: r
      else (c :: r.headD []) :: r.tail

/-- `String.prototype.split` with a one-character separator. -/
def jsSplit (s : String) (sep : Char) : List String :=
  (splitOnCharList sep s.toList).map String.mk

/-- JS `Map.get`. -/
def mapGet {α β : Type} [DecidableEq α] : List (α × β) → α → Option β
  | [], _ => none
  | (k, v) :: rest, k2 => if k = k2 then some v else mapGet rest k2

/-- JS `Map.set`: replaces the value in place, or appends a new entry. -/
def mapSet {α β : Type} [DecidableEq α] : List (α × β) → α → β → List (α × β)
  | [], k2, v2 => [(k2, v2)]
  | (k, v) :: rest, k2, v2 =>
      if k = k2 then (k2, v2) :: rest else (k, v) :: mapSet rest k2 v2

/-- JS `Map.delete`. -/
def mapDelete {α β : Type} [DecidableEq α] : List (α × β) → α → List (α × β)
  | [], _ => []
  | (k, v) :: rest, k2 =>
      if k = k2 then mapDelete rest k2 else (k, v) :: mapDelete rest k2

/-- JS `Set.add`: a no-op when present, else appended (insertion order). -/
def setAdd {α : Type} [DecidableEq α] (s : List α) (x : α) : List α :=
  if x ∈ s then s else s ++ [x]

/-- JS `Set.delete` (the sets built by `setAdd` never hold duplicates, so
    removing every occurrence is exact). -/
def setDelete {α : Type} [DecidableEq α] (s : List α) (x : α) : List α :=
  s.filter (fun y => y ≠ x)

/-- The identity attached to a session by a successful presence subscribe:
    `{id: channelData.user_id, info: channelData.user_info}` (either field may
    be `undefined` when absent from the parsed channel_data). -/
structure UserIdent where
  id : Option Json
  info : Option Json
deriving DecidableEq

/-- One entry of `this.clients`: the session's subscribed channel names and
    its optional identity (the WebSocket handle is replaced by tagging each
    outbound frame with the recipient's socket id). -/
structure Client where
  channels : List String
  user : Option UserIdent
deriving DecidableEq

/-- The whole PusherDO state: `this.clients`, `this.channels` and
    `this.presence`, with JS Maps/Sets as insertion-ordered lists. -/
structure DOState where
  clients : List (String × Client)
  channels : List (String × List String)
  presence : List (String × List (Option Json × Option Json))
deriving DecidableEq

/-- One outbound `ws.send(JSON.stringify(o))`, by the shape of `o`.  The
    `data` field of presence acknowledgments is the ids/hash/count snapshot;
    `subSucceededPresence` keeps the `members.count` that survives
    JSON.stringify (the `each` closure is dropped by stringify). -/
inductive OutFrame where
  | connectionEstablished : String → Nat → OutFrame
  | pong : OutFrame
  | err : String → Nat → OutFrame
  | subSucceededInternal : String → OutFrame
  | subSucceeded : String → OutFrame
  | subSucceededInternalPresence :
      String → List (Option Json) → List (String × Option Json) → Nat → OutFrame
  | subSucceededPresence : String → Nat → OutFrame
  | memberAdded : String → Option Json → Option Json → OutFrame
  | memberRemoved : String → Option Json → OutFrame
  | clientRelay : String → String → String → Option Json → OutFrame
  | broadcastEvt : Option Json → String → Option Json → OutFrame
deriving DecidableEq

/-- An outbound frame together with the socket id it is sent to. -/
structure Send where
  dest : String
  frame : OutFrame
deriving DecidableEq

/-- Lines 159-199 of `subscribe`: register the subscription in both indexes
    and send the acknowledgment (plus the member_added fan-out for presence
    channels).  `client` is the client currently stored for `socketId` in
    `st.clients` (already carrying the fresh identity in the presence case). -/
def finishSubscribe (st : DOState) (socketId channel : String) (client : Client) :
    DOState × List Send :=
  let chanSet := setAdd ((mapGet st.channels channel).getD []) socketId
  let client1 : Client := { client with channels := setAdd client.channels channel }
  let st1 : DOState :=
    { st with channels := mapSet st.channels channel chanSet,
              clients := mapSet st.clients socketId client1 }
  if jsStartsWith channel "presence-" then
    let members := (mapGet st1.presence channel).getD []
    let ids := members.map (fun m => m.1)
    let hash := members.map (fun m => (jsPropKey m.1, m.2))
    let count := ids.length
    let baseSends : List Send :=
      [⟨socketId, OutFrame.subSucceededInternalPresence channel ids hash count⟩,
       ⟨socketId, OutFrame.subSucceededPresence channel count⟩]
    match client1.user with
    | none => (st1, baseSends)
    | some u =>
        (st1, baseSends ++ chanSet.filterMap (fun sid =>
          if sid = socketId then none
          else if (mapGet st1.clients sid).isSome then
            some ⟨sid, OutFrame.memberAdded channel u.id u.info⟩
          else none))
  else
    (st1, [⟨socketId, OutFrame.subSucceededInternal channel⟩,
           ⟨socketId, OutFrame.subSucceeded channel⟩])

/-- The message signed for a protected subscribe:
    `socketId:channel` + `:channel_data` when channel_data is truthy
    (template-literal coercion for a non-string channel_data value). -/
def subBase (socketId channel : String) (payload : Json) : String :=
  socketId ++ ":" ++ channel ++
    (if jsTruthy (jget payload "channel_data") then
       ":" ++ jsPropKey (jget payload "channel_data")
     else "")

/-- `PusherDO.subscribe(socketId, payload)`.  Paths on which the JS code
    throws (non-string channel, truthy non-string auth, unparseable or null
    channel_data) return the state unchanged with no sends: at each of those
    sites nothing has been mutated or sent yet. -/
def subscribe (env : Env) (ext : Prim) (st : DOState) (socketId : String)
    (payload : Json) : DOState × List Send :=
  match mapGet st.clients socketId with
  | none => (st, [])
  | some client =>
    match jget payload "channel" with
    | some (Json.str channel) =>
      if jsStartsWith channel "private-" || jsStartsWith channel "presence-" then
        if ! jsTruthy (jget payload "auth") then
          (st, [⟨socketId, OutFrame.err "Auth required" 4009⟩])
        else
          match jget payload "auth" with
          | some (Json.str auth) =>
            let parts := jsSplit auth ':'
            let key := parts.headD ""
            let signature := parts.get? 1
            if key ≠ env.PUSHER_APP_KEY then
              (st, [⟨socketId, OutFrame.err "Invalid key" 4009⟩])
            else
              let expected := hmac ext env.PUSHER_APP_SECRET (subBase socketId channel payload)
              if signature ≠ some expected then
                (st, [⟨socketId, OutFrame.err "Invalid signature" 4009⟩])
              else
                if jsStartsWith channel "presence-" then
                  match jsonParseJS ext (jget payload "channel_data") with
                  | none => (st, [])
                  | some Json.null => (st, [])
                  | some channelData =>
                    let user : UserIdent :=
                      { id := jget channelData "user_id",
                        info := jget channelData "user_info" }
                    let client2 : Client := { client with user := some user }
                    let st2 : DOState :=
                      { st with
                        clients := mapSet st.clients socketId client2,
                        presence := mapSet st.presence channel
                          (mapSet ((mapGet st.presence channel).getD [])
                            user.id user.info) }
                    finishSubscribe st2 socketId channel client2
                else
                  finishSubscribe st socketId channel client
          | _ => (st, [])
      else
        finishSubscribe st socketId channel client
    | _ => (st, [])

/-- `PusherDO.unsubscribe(socketId, channel)`.  The member_removed fan-out
    iterates the channel's Set after `set.delete(socketId)` ran on it, so the
    leaver is never a recipient; the `?.` on each recipient lookup is the
    `isSome` guard. -/
def unsubscribe (st : DOState) (socketId channel : String) : DOState × List Send :=
  match mapGet st.clients socketId with
  | none => (st, [])
  | some client =>
    let client1 : Client := { client with channels := setDelete client.channels channel }
    let clients1 := mapSet st.clients socketId client1
    let setOld := mapGet st.channels channel
    let fanoutSet := ((setOld.map (fun s => setDelete s socketId)).getD [])
    let channels1 :=
      match setOld with
      | none => st.channels
      | some s =>
          let s1 := setDelete s socketId
          if s1.isEmpty then mapDelete st.channels channel
          else mapSet st.channels channel s1
    match (if jsStartsWith channel "presence-" then client1.user else none) with
    | some u =>
        let presence1 :=
          match mapGet st.presence channel with
          | some members => mapSet st.presence channel (mapDelete members u.id)
          | none => st.presence
        (⟨clients1, channels1, presence1⟩,
         fanoutSet.filterMap (fun sid =>
           if (mapGet clients1 sid).isSome then
             some ⟨sid, OutFrame.memberRemoved channel u.id⟩
           else none))
    | none => (⟨clients1, channels1, st.presence⟩, [])

/-- `PusherDO.clientEvent(socketId, channel, event, data)`.  A non-string
    `msg.channel` is in no Set of channel names, so `has` fails and the call
    drops before the `startsWith` checks could throw. -/
def clientEvent (st : DOState) (socketId : String) (channel : Option Json)
    (event data : String) : DOState × List Send :=
  match mapGet st.clients socketId with
  | none => (st, [])
  | some client =>
    match channel with
    | some (Json.str ch) =>
      if ch ∈ client.channels then
        if jsStartsWith ch "private-" || jsStartsWith ch "presence-" then
          match mapGet st.channels ch with
          | none => (st, [])
          | some set =>
              (st, set.filterMap (fun sid =>
                if sid = socketId then none
                else if (mapGet st.clients sid).isSome then
                  some ⟨sid, OutFrame.clientRelay event ch data
                          (client.user.bind (fun u => u.id))⟩
                else none))
        else (st, [])
      else (st, [])
    | _ => (st, [])

/-- `PusherDO.broadcast(body)` for a parsed publish body.  A string
    `channels` value is iterable character by character in JS; any other
    non-array value makes `for ... of` throw, delivering nothing either way.
    A list element that is not a string matches no Map key. -/
def broadcast (st : DOState) (body : Json) : DOState × List Send :=
  let name := jget body "name"
  let data := jget body "data"
  let socketIdEx := jget body "socket_id"
  let chans : List Json :=
    match jget body "channels" with
    | some (Json.arr xs) => xs
    | some (Json.str s) => s.toList.map (fun c => Json.str (String.singleton c))
    | _ => []
  (st, chans.flatMap (fun chv =>
    match chv with
    | Json.str ch =>
      match mapGet st.channels ch with
      | none => []
      | some set =>
          set.filterMap (fun sid =>
            if (match socketIdEx with
                | some (Json.str x) => sid == x
                | _ => false) then none
            else if (mapGet st.clients sid).isSome then
              some ⟨sid, OutFrame.broadcastEvt name ch data⟩
            else none)
    | _ => []))

/-- `PusherDO.onClose(socketId)`: unsubscribe from a snapshot of the
    session's channel set, in order, then drop the session from the
    registry. -/
def onClose (st : DOState) (socketId : String) : DOState × List Send :=
  match mapGet st.clients socketId with
  | none => (st, [])
  | some client =>
    let folded := client.channels.foldl
      (fun acc ch =>
        let r := unsubscribe acc.1 socketId ch
        (r.1, acc.2 ++ r.2))
      ((st, []) : DOState × List Send)
    ({ folded.1 with clients := mapDelete folded.1.clients socketId }, folded.2)

/-- The `data` string of `onMessage`:
    `typeof msg.data === "string" ? msg.data : JSON.stringify(msg.data || {})`. -/
def dataField (msg : Json) : String :=
  match jget msg "data" with
  | some (Json.str s) => s
  | some v => jsonStringify (if jsTruthy (some v) then v else Json.obj [])
  | none => jsonStringify (Json.obj [])

/-- `PusherDO.onMessage(socketId, ev)` on the text `raw` of the frame.  An
    envelope that fails `JSON.parse`, and an uncaught throw from
    `JSON.parse(data)` or from dispatch on a malformed envelope, leave the
    state untouched with nothing sent. -/
def onMessage (env : Env) (ext : Prim) (st : DOState) (socketId : String)
    (raw : String) : DOState × List Send :=
  match ext.jsonParse raw with
  | none => (st, [])
  | some msg =>
    let event := jget msg "event"
    let data := dataField msg
    if event = some (Json.str "pusher:ping") then
      (st, if (mapGet st.clients socketId).isSome then [⟨socketId, OutFrame.pong⟩] else [])
    else if event = some (Json.str "pusher:subscribe") then
      match ext.jsonParse data with
      | none => (st, [])
      | some payload => subscribe env ext st socketId payload
    else if event = some (Json.str "pusher:unsubscribe") then
      match ext.jsonParse data with
      | none => (st, [])
      | some payload =>
        match jget payload "channel" with
        | some (Json.str ch) => unsubscribe st socketId ch
        | _ => (st, [])
    else
      match event with
      | some (Json.str e) =>
          if jsStartsWith e "client-" then
            clientEvent st socketId (jget msg "channel") e data
          else (st, [])
      | _ => (st, [])

/-- The five state-touching operations of the actor, as one command type
    (used to state the invariants that hold across every operation). -/
inductive DOOp where
  | sub : String → Json → DOOp
  | unsub : String → String → DOOp
  | clientMsg : String → Option Json → String → String → DOOp
  | publish : Json → DOOp
  | close : String → DOOp

/-- Dispatch one operation against the state. -/
def applyOp (env : Env) (ext : Prim) (st : DOState) : DOOp → DOState × List Send
  | DOOp.sub sid payload => subscribe env ext st sid payload
  | DOOp.unsub sid ch => unsubscribe st sid ch
  | DOOp.clientMsg sid ch ev d => clientEvent st sid ch ev d
  | DOOp.publish body => broadcast st body
  | DOOp.close sid => onClose st sid

/-- The subscriber set of a channel (empty when the channel is absent). -/
def subsOf (st : DOState) (ch : String) : List String :=
  (mapGet st.channels ch).getD []

/-- The channel set of a session (empty when the session is unregistered). -/
def chansOf (st : DOState) (sid : String) : List String :=
  ((mapGet st.clients sid).map Client.channels).getD []

/-- The spec's registry/index coherence invariant: a session is listed as a
    subscriber of a channel exactly when the channel is in its channel set. -/
def StateInv (st : DOState) : Prop :=
  ∀ sid ch, sid ∈ subsOf st ch ↔ ch ∈ chansOf st sid

theorem mapGet_mapSet {α β : Type} [DecidableEq α] (m : List (α × β)) (k k2 : α)
    (v : β) : mapGet (mapSet m k v) k2 = if k = k2 then some v else mapGet m k2 := by
  induction m with
  | nil => simp [mapGet, mapSet]
  | cons hd tl ih =>
      obtain ⟨a, b⟩ := hd
      by_cases hak : a = k
      · rw [show mapSet ((a, b) :: tl) k v = (k, v) :: tl by
          simp only [mapSet, if_pos hak]]
        by_cases h2 : k = k2
        · simp only [mapGet, if_pos h2]
        · have hak2 : ¬ a = k2 := fun he => h2 (hak ▸ he)
          simp only [mapGet, if_neg h2, if_neg hak2]
      · rw [show mapSet ((a, b) :: tl) k v = (a, b) :: mapSet tl k v by
          simp only [mapSet, if_neg hak]]
        by_cases h2 : a = k2
        · have hkk2 : ¬ k = k2 := fun he => hak (h2.trans he.symm)
          simp only [mapGet, if_pos h2, if_neg hkk2]
        · simp only [mapGet, if_neg h2, ih]

theorem mapGet_mapDelete {α β : Type} [DecidableEq α] (m : List (α × β)) (k k2 : α) :
    mapGet (mapDelete m k) k2 = if k = k2 then none else mapGet m k2 := by
  induction m with
  | nil => simp [mapGet, mapDelete]
  | cons hd tl ih =>
      obtain ⟨a, b⟩ := hd
      by_cases hak : a = k
      · rw [show mapDelete ((a, b) :: tl) k = mapDelete tl k by
          simp only [mapDelete, if_pos hak]]
        rw [ih]
        by_cases h2 : k = k2
        · simp only [if_pos h2]
        · have hak2 : ¬ a = k2 := fun he => h2 (hak ▸ he)
          simp only [if_neg h2, mapGet, if_neg hak2]
      · rw [show mapDelete ((a, b) :: tl) k = (a, b) :: mapDelete tl k by
          simp only [mapDelete, if_neg hak]]
        by_cases h2 : a = k2
        · have hkk2 : ¬ k = k2 := fun he => hak (h2.trans he.symm)
          simp only [mapGet, if_pos h2, if_neg hkk2]
        · simp only [mapGet, if_neg h2, ih]

theorem mem_setAdd {α : Type} [DecidableEq α] (s : List α) (x y : α) :
    y ∈ setAdd s x ↔ y ∈ s ∨ y = x := by
  unfold setAdd
  split_ifs with h
  · constructor
    · exact Or.inl
    · rintro (h2 | rfl)
      · exact h2
      · exact h
  · simp

theorem mem_setDelete {α : Type} [DecidableEq α] (s : List α) (x y : α) :
    y ∈ setDelete s x ↔ y ∈ s ∧ y ≠ x := by
  simp [setDelete]

theorem setAdd_ne_nil {α : Type} [DecidableEq α] (s : List α) (x : α) :
    setAdd s x ≠ [] := by
  unfold setAdd
  split_ifs with h
  · intro he; rw [he] at h; exact absurd h (List.not_mem_nil x)
  · simp

theorem setDelete_isEmpty_mem {α : Type} [DecidableEq α] {s : List α} {x y : α}
    (h : (setDelete s x).isEmpty = true) (hy : y ∈ s) : y = x := by
  by_contra hne
  have : y ∈ setDelete s x := (mem_setDelete s x y).mpr ⟨hy, hne⟩
  rw [List.isEmpty_iff] at h
  rw [h] at this
  exact absurd this (List.not_mem_nil y)

/-- Both branches of `finishSubscribe` return the same state: both indexes
    updated with the new subscription. -/
theorem finishSubscribe_fst (st : DOState) (sid ch : String) (client : Client) :
    (finishSubscribe st sid ch client).1 =
      { st with
        channels := mapSet st.channels ch (setAdd ((mapGet st.channels ch).getD []) sid),
        clients := mapSet st.clients sid { client with channels := setAdd client.channels ch } } := by
  unfold finishSubscribe
  dsimp only
  split
  · split <;> rfl
  · rfl

theorem clientEvent_fst (st : DOState) (sid : String) (ch : Option Json)
    (ev d : String) : (clientEvent st sid ch ev d).1 = st := by
  unfold clientEvent
  split
  · rfl
  · split
    · split
      · split
        · split <;> rfl
        · rfl
      · rfl
    · rfl

theorem broadcast_fst (st : DOState) (body : Json) : (broadcast st body).1 = st := rfl

/-- The clients map after `unsubscribe` for a registered session. -/
theorem unsubscribe_clients (st : DOState) (sid ch : String) (client : Client)
    (hc : mapGet st.clients sid = some client) :
    (unsubscribe st sid ch).1.clients =
      mapSet st.clients sid { client with channels := setDelete client.channels ch } := by
  unfold unsubscribe
  rw [hc]
  dsimp only
  split <;> rfl

/-- `unsubscribe` never changes the channels map of other channels, and its
    effect on `ch` follows the delete-when-empty rule. -/
theorem unsubscribe_channels (st : DOState) (sid ch : String) (client : Client)
    (hc : mapGet st.clients sid = some client) :
    (unsubscribe st sid ch).1.channels =
      match mapGet st.channels ch with
      | none => st.channels
      | some s =>
          if (setDelete s sid).isEmpty then mapDelete st.channels ch
          else mapSet st.channels ch (setDelete s sid) := by
  unfold unsubscribe
  rw [hc]
  dsimp only
  split <;> rfl

theorem chansOf_of_get (st : DOState) (sid : String) (client : Client)
    (hc : mapGet st.clients sid = some client) : chansOf st sid = client.channels := by
  simp [chansOf, hc]

/-- Registering a subscription in both indexes preserves the coherence
    invariant. -/
theorem stateInv_finishSubscribe (st : DOState) (sid ch : String) (client : Client)
    (hc : mapGet st.clients sid = some client) (hinv : StateInv st) :
    StateInv (finishSubscribe st sid ch client).1 := by
  rw [finishSubscribe_fst]
  intro s c
  simp only [subsOf, chansOf, mapGet_mapSet]
  by_cases hcs : ch = c <;> by_cases hss : sid = s
  · subst hcs; subst hss
    simp [mem_setAdd]
  · subst hcs
    rw [if_pos rfl, if_neg hss]
    have hbase := hinv s ch
    simp only [subsOf, chansOf] at hbase
    simp only [Option.getD_some, mem_setAdd]
    constructor
    · rintro (h | rfl)
      · exact hbase.mp h
      · exact absurd rfl hss
    · intro h
      exact Or.inl (hbase.mpr h)
  · subst hss
    rw [if_neg hcs, if_pos rfl]
    have hbase := hinv sid c
    simp only [subsOf, chansOf, hc] at hbase
    simp only [Option.map_some', Option.getD_some, mem_setAdd]
    constructor
    · intro h
      exact Or.inl (hbase.mp h)
    · rintro (h | rfl)
      · exact hbase.mpr h
      · exact absurd rfl hcs
  · rw [if_neg hcs, if_neg hss]
    exact hinv s c

/-- Overwriting a session's identity (and the presence store) leaves the
    coherence invariant intact: neither index changes. -/
theorem stateInv_setUser (st : DOState) (sid : String) (client : Client)
    (u : Option UserIdent) (p : List (String × List (Option Json × Option Json)))
    (hc : mapGet st.clients sid = some client) (hinv : StateInv st) :
    StateInv ⟨mapSet st.clients sid { client with user := u }, st.channels, p⟩ := by
  intro s c
  have hbase := hinv s c
  simp only [subsOf, chansOf, mapGet_mapSet] at *
  by_cases hss : sid = s
  · subst hss
    rw [if_pos rfl]
    simpa [hc] using hbase
  · rw [if_neg hss]
    exact hbase

/-- Every path of `subscribe` either leaves the state unchanged (guard,
    auth-failure, or throwing path) or ends in `finishSubscribe`, possibly
    after attaching an identity and a presence entry. -/
theorem subscribe_fst_cases (env : Env) (ext : Prim) (st : DOState) (sid : String)
    (payload : Json) :
    (subscribe env ext st sid payload).1 = st ∨
    ∃ client ch user,
      mapGet st.clients sid = some client ∧
      jget payload "channel" = some (Json.str ch) ∧
      ((subscribe env ext st sid payload).1 = (finishSubscribe st sid ch client).1 ∨
       (subscribe env ext st sid payload).1 =
         (finishSubscribe
            ⟨mapSet st.clients sid { client with user := some user }, st.channels,
             mapSet st.presence ch
               (mapSet ((mapGet st.presence ch).getD []) user.id user.info)⟩
            sid ch { client with user := some user }).1) := by
  unfold subscribe
  cases hc : mapGet st.clients sid with
  | none => exact Or.inl rfl
  | some client =>
    cases hch : jget payload "channel" with
    | none => exact Or.inl rfl
    | some j =>
      cases j with
      | null => exact Or.inl rfl
      | bool b => exact Or.inl rfl
      | num n => exact Or.inl rfl
      | arr xs => exact Or.inl rfl
      | obj fs => exact Or.inl rfl
      | str ch =>
          dsimp only
          by_cases hprot : (jsStartsWith ch "private-" || jsStartsWith ch "presence-") = true
          · rw [if_pos hprot]
            by_cases hauth : (! jsTruthy (jget payload "auth")) = true
            · rw [if_pos hauth]; exact Or.inl rfl
            · rw [if_neg hauth]
              cases ha : jget payload "auth" with
              | none => exact Or.inl rfl
              | some aj =>
                cases aj with
                | null => exact Or.inl rfl
                | bool b => exact Or.inl rfl
                | num n => exact Or.inl rfl
                | arr xs => exact Or.inl rfl
                | obj fs => exact Or.inl rfl
                | str auth =>
                    dsimp only
                    by_cases hk : (jsSplit auth ':').headD "" ≠ env.PUSHER_APP_KEY
                    · rw [if_pos hk]; exact Or.inl rfl
                    · rw [if_neg hk]
                      by_cases hsig : (jsSplit auth ':').get? 1 ≠
                          some (hmac ext env.PUSHER_APP_SECRET (subBase sid ch payload))
                      · rw [if_pos hsig]; exact Or.inl rfl
                      · rw [if_neg hsig]
                        by_cases hpres : jsStartsWith ch "presence-" = true
                        · rw [if_pos hpres]
                          cases hcd : jsonParseJS ext (jget payload "channel_data") with
                          | none => exact Or.inl rfl
                          | some cd =>
                            cases cd with
                            | null => exact Or.inl rfl
                            | bool b =>
                                exact Or.inr ⟨client, ch, _, rfl, rfl, Or.inr rfl⟩
                            | num n =>
                                exact Or.inr ⟨client, ch, _, rfl, rfl, Or.inr rfl⟩
                            | str s2 =>
                                exact Or.inr ⟨client, ch, _, rfl, rfl, Or.inr rfl⟩
                            | arr xs =>
                                exact Or.inr ⟨client, ch, _, rfl, rfl, Or.inr rfl⟩
                            | obj fs =>
                                exact Or.inr ⟨client, ch, _, rfl, rfl, Or.inr rfl⟩
                        · rw [if_neg hpres]
                          exact Or.inr ⟨client, ch, ⟨none, none⟩, rfl, rfl, Or.inl rfl⟩
          · rw [if_neg hprot]
            exact Or.inr ⟨client, ch, ⟨none, none⟩, rfl, rfl, Or.inl rfl⟩

theorem stateInv_subscribe (env : Env) (ext : Prim) (st : DOState) (sid : String)
    (payload : Json) (hinv : StateInv st) :
    StateInv (subscribe env ext st sid payload).1 := by
  rcases subscribe_fst_cases env ext st sid payload with h | ⟨client, ch, user, hc, hch, h | h⟩
  · rw [h]; exact hinv
  · rw [h]; exact stateInv_finishSubscribe st sid ch client hc hinv
  · rw [h]
    apply stateInv_finishSubscribe
    · rw [mapGet_mapSet]; simp
    · exact stateInv_setUser st sid client (some user) _ hc hinv

theorem stateInv_unsubscribe (st : DOState) (sid ch : String) (hinv : StateInv st) :
    StateInv (unsubscribe st sid ch).1 := by
  cases hc : mapGet st.clients sid with
  | none =>
      unfold unsubscribe
      rw [hc]
      exact hinv
  | some client =>
    have hcl := unsubscribe_clients st sid ch client hc
    have hchn := unsubscribe_channels st sid ch client hc
    have hchans : ∀ s, chansOf (unsubscribe st sid ch).1 s =
        if sid = s then setDelete client.channels ch else chansOf st s := by
      intro s
      simp only [chansOf, hcl, mapGet_mapSet]
      by_cases hss : sid = s
      · simp [if_pos hss]
      · simp [if_neg hss]
    have hbase0 : chansOf st sid = client.channels := chansOf_of_get st sid client hc
    cases h0 : mapGet st.channels ch with
    | none =>
      have hch2 : (unsubscribe st sid ch).1.channels = st.channels := by
        rw [hchn, h0]
      intro s c
      have hsubs : subsOf (unsubscribe st sid ch).1 c = subsOf st c := by
        simp only [subsOf, hch2]
      rw [hsubs, hchans s]
      by_cases hss : sid = s
      · subst hss
        rw [if_pos rfl, mem_setDelete]
        have hbase := hinv sid c
        rw [hbase0] at hbase
        constructor
        · intro h
          refine ⟨hbase.mp h, fun hcch => ?_⟩
          subst hcch
          simp [subsOf, h0] at h
        · intro h
          exact hbase.mpr h.1
      · rw [if_neg hss]
        exact hinv s c
    | some s0 =>
      have hch2 : (unsubscribe st sid ch).1.channels =
          (if (setDelete s0 sid).isEmpty then mapDelete st.channels ch
           else mapSet st.channels ch (setDelete s0 sid)) := by
        rw [hchn, h0]
      by_cases hemp : (setDelete s0 sid).isEmpty = true
      · rw [if_pos hemp] at hch2
        intro s c
        have hsubs : subsOf (unsubscribe st sid ch).1 c =
            if ch = c then [] else subsOf st c := by
          simp only [subsOf, hch2, mapGet_mapDelete]
          by_cases hcs : ch = c
          · simp [if_pos hcs]
          · simp [if_neg hcs]
        rw [hsubs, hchans s]
        by_cases hcs : ch = c <;> by_cases hss : sid = s
        · subst hcs; subst hss
          rw [if_pos rfl, if_pos rfl, mem_setDelete]
          simp
        · subst hcs
          rw [if_pos rfl, if_neg hss]
          have hbase := hinv s ch
          simp only [subsOf, h0, Option.getD_some] at hbase
          simp only [List.not_mem_nil, false_iff]
          intro hmem
          exact hss ((setDelete_isEmpty_mem hemp (hbase.mpr hmem)).symm)
        · subst hss
          rw [if_neg hcs, if_pos rfl, mem_setDelete]
          have hbase := hinv sid c
          rw [hbase0] at hbase
          constructor
          · intro h
            exact ⟨hbase.mp h, fun hcch => hcs hcch.symm⟩
          · intro h
            exact hbase.mpr h.1
        · rw [if_neg hcs, if_neg hss]
          exact hinv s c
      · rw [if_neg hemp] at hch2
        intro s c
        have hsubs : subsOf (unsubscribe st sid ch).1 c =
            if ch = c then setDelete s0 sid else subsOf st c := by
          simp only [subsOf, hch2, mapGet_mapSet]
          by_cases hcs : ch = c
          · simp [if_pos hcs]
          · simp [if_neg hcs]
        rw [hsubs, hchans s]
        by_cases hcs : ch = c <;> by_cases hss : sid = s
        · subst hcs; subst hss
          rw [if_pos rfl, if_pos rfl, mem_setDelete, mem_setDelete]
          simp
        · subst hcs
          rw [if_pos rfl, if_neg hss, mem_setDelete]
          have hbase := hinv s ch
          simp only [subsOf, h0, Option.getD_some] at hbase
          constructor
          · intro h
            exact hbase.mp h.1
          · intro h
            exact ⟨hbase.mpr h, fun hssid => hss hssid.symm⟩
        · subst hss
          rw [if_neg hcs, if_pos rfl, mem_setDelete]
          have hbase := hinv sid c
          rw [hbase0] at hbase
          constructor
          · intro h
            exact ⟨hbase.mp h, fun hcch => hcs hcch.symm⟩
          · intro h
            exact hbase.mpr h.1
        · rw [if_neg hcs, if_neg hss]
          exact hinv s c

/-- The state component of the onClose fold only depends on the states. -/
theorem closeLoop_fst (sid : String) : ∀ (L : List String) (st : DOState) (out : List Send),
    (L.foldl (fun acc ch =>
        let r := unsubscribe acc.1 sid ch
        (r.1, acc.2 ++ r.2)) (st, out)).1 =
      L.foldl (fun s2 ch => (unsubscribe s2 sid ch).1) st
  | [], _, _ => rfl
  | _ :: L, _, _ => closeLoop_fst sid L _ _

theorem closeLoop_inv (sid : String) : ∀ (L : List String) (st : DOState),
    StateInv st → StateInv (L.foldl (fun s2 ch => (unsubscribe s2 sid ch).1) st)
  | [], _, h => h
  | a :: L, st, h => closeLoop_inv sid L _ (stateInv_unsubscribe st sid a h)

theorem filter_setDelete {α : Type} [DecidableEq α] (l : List α) (a : α) (L : List α) :
    (setDelete l a).filter (fun c => decide (c ∉ L)) =
      l.filter (fun c => decide (c ∉ a :: L)) := by
  simp only [setDelete, List.filter_filter]
  apply List.filter_congr
  intro x _
  by_cases h1 : x = a <;> by_cases h2 : x ∈ L <;> simp [h1, h2]

/-- After unsubscribing a session from every channel in `L`, its stored
    channel set is the original one filtered by non-membership in `L`. -/
theorem closeLoop_clients (sid : String) : ∀ (L : List String) (st : DOState)
    (client : Client), mapGet st.clients sid = some client →
    mapGet (L.foldl (fun s2 ch => (unsubscribe s2 sid ch).1) st).clients sid =
      some ⟨client.channels.filter (fun c => decide (c ∉ L)), client.user⟩
  | [], st, client, hc => by
      simpa using hc
  | a :: L, st, client, hc => by
      have hstep : mapGet ((unsubscribe st sid a).1).clients sid =
          some ⟨setDelete client.channels a, client.user⟩ := by
        rw [unsubscribe_clients st sid a client hc, mapGet_mapSet, if_pos rfl]
      have ih := closeLoop_clients sid L ((unsubscribe st sid a).1)
        ⟨setDelete client.channels a, client.user⟩ hstep
      rw [List.foldl_cons, ih, filter_setDelete]

theorem stateInv_onClose (st : DOState) (sid : String) (hinv : StateInv st) :
    StateInv (onClose st sid).1 := by
  unfold onClose
  cases hc : mapGet st.clients sid with
  | none => exact hinv
  | some client =>
    dsimp only
    rw [closeLoop_fst]
    have hF : StateInv (client.channels.foldl
        (fun s2 ch => (unsubscribe s2 sid ch).1) st) :=
      closeLoop_inv sid client.channels st hinv
    have hcF : mapGet (client.channels.foldl
        (fun s2 ch => (unsubscribe s2 sid ch).1) st).clients sid =
        some ⟨[], client.user⟩ := by
      have h2 := closeLoop_clients sid client.channels st client hc
      rwa [show client.channels.filter (fun c => decide (c ∉ client.channels)) = []
        by
          rw [List.filter_eq_nil_iff]
          intro a ha
          simp [ha]] at h2
    intro s c
    simp only [subsOf, chansOf, mapGet_mapDelete]
    by_cases hss : sid = s
    · subst hss
      rw [if_pos rfl]
      have hbase := hF sid c
      simp only [subsOf, chansOf, hcF] at hbase
      simpa using hbase
    · rw [if_neg hss]
      exact hF s c

/-- C1: for every session S and channel C, S is in C's subscriber set exactly
    when C is in S's channel set, and this coherence is preserved by every
    operation: subscribe, unsubscribe, client relay, broadcast, and
    disconnect cleanup. -/
theorem C1_subscriber_channel_invariant (env : Env) (ext : Prim) (st : DOState)
    (op : DOOp) (hinv : StateInv st) : StateInv (applyOp env ext st op).1 := by
  cases op with
  | sub sid payload => exact stateInv_subscribe env ext st sid payload hinv
  | unsub sid ch => exact stateInv_unsubscribe st sid ch hinv
  | clientMsg sid ch ev d => rw [applyOp, clientEvent_fst]; exact hinv
  | publish body => rw [applyOp, broadcast_fst]; exact hinv
  | close sid => exact stateInv_onClose st sid hinv

theorem stateInv_empty : StateInv ⟨[], [], []⟩ := by
  intro sid ch
  simp [subsOf, chansOf, mapGet]

/-- Witness for C1 at a concrete state and operation. -/
theorem C1_subscriber_channel_invariant_witness :
    StateInv (applyOp ⟨"key", "secret"⟩ ⟨fun _ => none, fun _ _ => []⟩ ⟨[], [], []⟩
      (DOOp.close "A")).1 :=
  C1_subscriber_channel_invariant ⟨"key", "secret"⟩ ⟨fun _ => none, fun _ _ => []⟩
    ⟨[], [], []⟩ (DOOp.close "A") stateInv_empty

/-- C10: subscribe, unsubscribe, client relay, and disconnect cleanup for a
    socket id that is not in the session registry return silently: no frame
    is sent and no state is changed. -/
theorem C10_unknown_session_noop (env : Env) (ext : Prim) (st : DOState)
    (sid : String) (payload : Json) (ch : String) (chj : Option Json)
    (ev d : String) (h : mapGet st.clients sid = none) :
    subscribe env ext st sid payload = (st, []) ∧
    unsubscribe st sid ch = (st, []) ∧
    clientEvent st sid chj ev d = (st, []) ∧
    onClose st sid = (st, []) := by
  refine ⟨?_, ?_, ?_, ?_⟩
  · unfold subscribe; rw [h]
  · unfold unsubscribe; rw [h]
  · unfold clientEvent; rw [h]
  · unfold onClose; rw [h]

/-- Witness for C10 on a concrete state with no registered sessions. -/
theorem C10_unknown_session_noop_witness :
    subscribe ⟨"k", "s"⟩ ⟨fun _ => none, fun _ _ => []⟩ ⟨[], [], []⟩ "Z" Json.null
        = (⟨[], [], []⟩, []) ∧
    unsubscribe ⟨[], [], []⟩ "Z" "c" = (⟨[], [], []⟩, []) ∧
    clientEvent ⟨[], [], []⟩ "Z" none "client-x" "d" = (⟨[], [], []⟩, []) ∧
    onClose ⟨[], [], []⟩ "Z" = (⟨[], [], []⟩, []) :=
  C10_unknown_session_noop ⟨"k", "s"⟩ ⟨fun _ => none, fun _ _ => []⟩ ⟨[], [], []⟩
    "Z" Json.null "c" none "client-x" "d" rfl

/-- Every channel entry in the index has a non-empty subscriber list. -/
def ChannelsNonempty (st : DOState) : Prop :=
  ∀ ch s, mapGet st.channels ch = some s → s ≠ []

theorem channelsNonempty_finishSubscribe (st : DOState) (sid ch : String)
    (client : Client) (hne : ChannelsNonempty st) :
    ChannelsNonempty (finishSubscribe st sid ch client).1 := by
  rw [finishSubscribe_fst]
  intro c s h
  rw [mapGet_mapSet] at h
  by_cases hcs : ch = c
  · rw [if_pos hcs] at h
    cases h
    exact setAdd_ne_nil _ _
  · rw [if_neg hcs] at h
    exact hne c s h

theorem channelsNonempty_subscribe (env : Env) (ext : Prim) (st : DOState)
    (sid : String) (payload : Json) (hne : ChannelsNonempty st) :
    ChannelsNonempty (subscribe env ext st sid payload).1 := by
  rcases subscribe_fst_cases env ext st sid payload with h | ⟨client, ch, user, hc, hch, h | h⟩
  · rw [h]; exact hne
  · rw [h]; exact channelsNonempty_finishSubscribe st sid ch client hne
  · rw [h]; exact channelsNonempty_finishSubscribe _ sid ch _ hne

theorem channelsNonempty_unsubscribe (st : DOState) (sid ch : String)
    (hne : ChannelsNonempty st) : ChannelsNonempty (unsubscribe st sid ch).1 := by
  cases hc : mapGet st.clients sid with
  | none =>
      unfold unsubscribe
      rw [hc]
      exact hne
  | some client =>
    have hchn := unsubscribe_channels st sid ch client hc
    intro c s h
    rw [hchn] at h
    cases h0 : mapGet st.channels ch with
    | none =>
        rw [h0] at h
        exact hne c s h
    | some s0 =>
        rw [h0] at h
        dsimp only at h
        by_cases hemp : (setDelete s0 sid).isEmpty = true
        · rw [if_pos hemp, mapGet_mapDelete] at h
          by_cases hcs : ch = c
          · rw [if_pos hcs] at h
            exact absurd h (by simp)
          · rw [if_neg hcs] at h
            exact hne c s h
        · rw [if_neg hemp, mapGet_mapSet] at h
          by_cases hcs : ch = c
          · rw [if_pos hcs] at h
            cases h
            intro hnil
            rw [hnil] at hemp
            exact hemp rfl
          · rw [if_neg hcs] at h
            exact hne c s h

theorem channelsNonempty_closeLoop (sid : String) : ∀ (L : List String) (st : DOState),
    ChannelsNonempty st →
    ChannelsNonempty (L.foldl (fun s2 ch => (unsubscribe s2 sid ch).1) st)
  | [], _, h => h
  | a :: L, st, h => channelsNonempty_closeLoop sid L _ (channelsNonempty_unsubscribe st sid a h)

theorem channelsNonempty_onClose (st : DOState) (sid : String)
    (hne : ChannelsNonempty st) : ChannelsNonempty (onClose st sid).1 := by
  unfold onClose
  cases hc : mapGet st.clients sid with
  | none => exact hne
  | some client =>
    dsimp only
    rw [closeLoop_fst]
    exact channelsNonempty_closeLoop sid client.channels st hne

/-- C6: no orphan channels.  (a) Every operation preserves non-emptiness of
    every channel's subscriber set; (b) unsubscribing the last subscriber
    deletes the channel entry entirely; (c) a broadcast naming a channel that
    is absent from the index is a silent no-op: nothing delivered, state
    unchanged, no error. -/
theorem C6_no_orphan_channels (env : Env) (ext : Prim) (st : DOState) (op : DOOp)
    (sid ch : String) (client : Client) (body : Json) :
    (ChannelsNonempty st → ChannelsNonempty (applyOp env ext st op).1) ∧
    (mapGet st.clients sid = some client → mapGet st.channels ch = some [sid] →
      mapGet (unsubscribe st sid ch).1.channels ch = none) ∧
    (jget body "channels" = some (Json.arr [Json.str ch]) →
      mapGet st.channels ch = none → broadcast st body = (st, [])) := by
  refine ⟨?_, ?_, ?_⟩
  · intro hne
    cases op with
    | sub sid2 payload => exact channelsNonempty_subscribe env ext st sid2 payload hne
    | unsub sid2 ch2 => exact channelsNonempty_unsubscribe st sid2 ch2 hne
    | clientMsg sid2 ch2 ev2 d2 => rw [applyOp, clientEvent_fst]; exact hne
    | publish body2 => rw [applyOp, broadcast_fst]; exact hne
    | close sid2 => exact channelsNonempty_onClose st sid2 hne
  · intro hc h0
    rw [unsubscribe_channels st sid ch client hc, h0]
    dsimp only
    rw [if_pos (by simp [setDelete]), mapGet_mapDelete, if_pos rfl]
  · intro hch h0
    unfold broadcast
    rw [hch]
    simp [h0]

/-- Test environment: application key "k", secret "s". -/
def envT : Env := ⟨"k", "s"⟩

def cdU1 : Json := Json.obj [("user_id", Json.str "u1"), ("user_info", Json.str "i1")]

def cdU2 : Json := Json.obj [("user_id", Json.str "u2"), ("user_info", Json.str "i2")]

def cdUA : Json := Json.obj [("user_id", Json.str "ua"), ("user_info", Json.str "ia")]

/-- Test primitives: a finite JSON.parse table and an HMAC returning no
    bytes, so every valid signature is the empty hex string and auth "k:"
    verifies. -/
def extT : Prim :=
  ⟨fun s =>
      if s = "cd1" then some cdU1
      else if s = "cd2" then some cdU2
      else if s = "cda" then some cdUA
      else none,
   fun _ _ => []⟩

/-- A presence/private subscribe payload carrying channel_data string `cds`. -/
def payP (ch cds : String) : Json :=
  Json.obj [("channel", Json.str ch), ("auth", Json.str "k:"),
            ("channel_data", Json.str cds)]

/-- One registered session "A" subscribed to channel "c". -/
def stA : DOState := ⟨[("A", ⟨["c"], none⟩)], [("c", ["A"])], []⟩

theorem channelsNonempty_one (cl : List (String × Client)) (c a : String)
    (p : List (String × List (Option Json × Option Json))) :
    ChannelsNonempty ⟨cl, [(c, [a])], p⟩ := by
  intro ch s h
  simp only [mapGet] at h
  by_cases hcch : c = ch
  · rw [if_pos hcch] at h
    cases h
    simp
  · rw [if_neg hcch] at h
    exact absurd h (by simp [mapGet])

/-- Witness for C6 at concrete states. -/
theorem C6_no_orphan_channels_witness :
    ChannelsNonempty (applyOp envT extT stA (DOOp.unsub "A" "c")).1 ∧
    mapGet (unsubscribe stA "A" "c").1.channels "c" = none ∧
    broadcast stA (Json.obj [("channels", Json.arr [Json.str "nope"])]) = (stA, []) :=
  ⟨(C6_no_orphan_channels envT extT stA (DOOp.unsub "A" "c") "A" "c" ⟨["c"], none⟩
      Json.null).1 (channelsNonempty_one _ "c" "A" _),
   (C6_no_orphan_channels envT extT stA (DOOp.unsub "A" "c") "A" "c" ⟨["c"], none⟩
      Json.null).2.1 (by decide) (by decide),
   (C6_no_orphan_channels envT extT stA (DOOp.unsub "A" "c") "A" "nope" ⟨["c"], none⟩
      (Json.obj [("channels", Json.arr [Json.str "nope"])])).2.2 (by decide) (by decide)⟩

/-- A successful presence subscribe: attach the identity from the parsed
    channel_data, write the presence entry, then `finishSubscribe`. -/
theorem subscribe_presence_eq (env : Env) (ext : Prim) (st : DOState) (sid : String)
    (payload : Json) (ch a : String) (cd : Json) (client : Client)
    (hc : mapGet st.clients sid = some client)
    (hch : jget payload "channel" = some (Json.str ch))
    (hpres : jsStartsWith ch "presence-" = true)
    (ha : jget payload "auth" = some (Json.str a))
    (hane : a ≠ "")
    (hkey : (jsSplit a ':').headD "" = env.PUSHER_APP_KEY)
    (hsig : (jsSplit a ':').get? 1 =
      some (hmac ext env.PUSHER_APP_SECRET (subBase sid ch payload)))
    (hcd : jsonParseJS ext (jget payload "channel_data") = some cd)
    (hnn : cd ≠ Json.null) :
    subscribe env ext st sid payload =
      finishSubscribe
        ⟨mapSet st.clients sid
           { client with user := some ⟨jget cd "user_id", jget cd "user_info"⟩ },
         st.channels,
         mapSet st.presence ch
           (mapSet ((mapGet st.presence ch).getD [])
             (jget cd "user_id") (jget cd "user_info"))⟩
        sid ch { client with user := some ⟨jget cd "user_id", jget cd "user_info"⟩ } := by
  unfold subscribe
  simp only [hc, hch]
  rw [if_pos (by simp [hpres])]
  rw [if_neg (by simp [ha, jsTruthy, hane])]
  simp only [ha]
  rw [if_neg (fun h => h hkey)]
  rw [if_neg (fun h => h hsig)]
  rw [if_pos hpres]
  cases cd with
  | null => exact absurd rfl hnn
  | bool b => simp only [hcd]
  | num n => simp only [hcd]
  | str s2 => simp only [hcd]
  | arr xs => simp only [hcd]
  | obj fs => simp only [hcd]

/-- A successful private-channel subscribe (no presence step). -/
theorem subscribe_private_eq (env : Env) (ext : Prim) (st : DOState) (sid : String)
    (payload : Json) (ch a : String) (client : Client)
    (hc : mapGet st.clients sid = some client)
    (hch : jget payload "channel" = some (Json.str ch))
    (hprot : (jsStartsWith ch "private-" || jsStartsWith ch "presence-") = true)
    (hnpres : jsStartsWith ch "presence-" = false)
    (ha : jget payload "auth" = some (Json.str a))
    (hane : a ≠ "")
    (hkey : (jsSplit a ':').headD "" = env.PUSHER_APP_KEY)
    (hsig : (jsSplit a ':').get? 1 =
      some (hmac ext env.PUSHER_APP_SECRET (subBase sid ch payload))) :
    subscribe env ext st sid payload = finishSubscribe st sid ch client := by
  unfold subscribe
  simp only [hc, hch]
  rw [if_pos hprot]
  rw [if_neg (by simp [ha, jsTruthy, hane])]
  simp only [ha]
  rw [if_neg (fun h => h hkey)]
  rw [if_neg (fun h => h hsig)]
  rw [if_neg (by simp [hnpres])]

/-- A public-channel subscribe: no auth checks at all. -/
theorem subscribe_public_eq (env : Env) (ext : Prim) (st : DOState) (sid : String)
    (payload : Json) (ch : String) (client : Client)
    (hc : mapGet st.clients sid = some client)
    (hch : jget payload "channel" = some (Json.str ch))
    (hprot : (jsStartsWith ch "private-" || jsStartsWith ch "presence-") = false) :
    subscribe env ext st sid payload = finishSubscribe st sid ch client := by
  unfold subscribe
  simp only [hc, hch]
  rw [if_neg (by simp [hprot])]

/-- Falsy auth on a protected channel: one "Auth required" error, state
    untouched. -/
theorem subscribe_auth_missing (env : Env) (ext : Prim) (st : DOState) (sid : String)
    (payload : Json) (ch : String) (client : Client)
    (hc : mapGet st.clients sid = some client)
    (hch : jget payload "channel" = some (Json.str ch))
    (hprot : (jsStartsWith ch "private-" || jsStartsWith ch "presence-") = true)
    (hfalsy : jsTruthy (jget payload "auth") = false) :
    subscribe env ext st sid payload = (st, [⟨sid, OutFrame.err "Auth required" 4009⟩]) := by
  unfold subscribe
  simp only [hc, hch]
  rw [if_pos hprot]
  rw [if_pos (by simp [hfalsy])]

/-- Truthy non-string auth on a protected channel: `auth.split` throws, the
    request is dropped with no reply and no state change. -/
theorem subscribe_auth_nonstring (env : Env) (ext : Prim) (st : DOState) (sid : String)
    (payload : Json) (ch : String) (v : Json) (client : Client)
    (hc : mapGet st.clients sid = some client)
    (hch : jget payload "channel" = some (Json.str ch))
    (hprot : (jsStartsWith ch "private-" || jsStartsWith ch "presence-") = true)
    (ha : jget payload "auth" = some v)
    (htr : jsTruthy (some v) = true)
    (hns : ∀ s2, v ≠ Json.str s2) :
    subscribe env ext st sid payload = (st, []) := by
  unfold subscribe
  simp only [hc, hch]
  rw [if_pos hprot]
  rw [if_neg (by simp [ha, htr])]
  simp only [ha]
  cases v with
  | null => rfl
  | bool b => rfl
  | num n => rfl
  | str s2 => exact absurd rfl (hns s2)
  | arr xs => rfl
  | obj fs => rfl

/-- Wrong key: one "Invalid key" error, state untouched. -/
theorem subscribe_bad_key (env : Env) (ext : Prim) (st : DOState) (sid : String)
    (payload : Json) (ch a : String) (client : Client)
    (hc : mapGet st.clients sid = some client)
    (hch : jget payload "channel" = some (Json.str ch))
    (hprot : (jsStartsWith ch "private-" || jsStartsWith ch "presence-") = true)
    (ha : jget payload "auth" = some (Json.str a))
    (hane : a ≠ "")
    (hkey : (jsSplit a ':').headD "" ≠ env.PUSHER_APP_KEY) :
    subscribe env ext st sid payload = (st, [⟨sid, OutFrame.err "Invalid key" 4009⟩]) := by
  unfold subscribe
  simp only [hc, hch]
  rw [if_pos hprot]
  rw [if_neg (by simp [ha, jsTruthy, hane])]
  simp only [ha]
  rw [if_pos hkey]

/-- Wrong (or missing) signature part: one "Invalid signature" error, state
    untouched. -/
theorem subscribe_bad_sig (env : Env) (ext : Prim) (st : DOState) (sid : String)
    (payload : Json) (ch a : String) (client : Client)
    (hc : mapGet st.clients sid = some client)
    (hch : jget payload "channel" = some (Json.str ch))
    (hprot : (jsStartsWith ch "private-" || jsStartsWith ch "presence-") = true)
    (ha : jget payload "auth" = some (Json.str a))
    (hane : a ≠ "")
    (hkey : (jsSplit a ':').headD "" = env.PUSHER_APP_KEY)
    (hsig : (jsSplit a ':').get? 1 ≠
      some (hmac ext env.PUSHER_APP_SECRET (subBase sid ch payload))) :
    subscribe env ext st sid payload = (st, [⟨sid, OutFrame.err "Invalid signature" 4009⟩]) := by
  unfold subscribe
  simp only [hc, hch]
  rw [if_pos hprot]
  rw [if_neg (by simp [ha, jsTruthy, hane])]
  simp only [ha]
  rw [if_neg (fun h => h hkey)]
  rw [if_pos hsig]

/-- A presence subscribe whose channel_data does not parse: dropped with no
    reply and no state change (the uncaught `JSON.parse` throw). -/
theorem subscribe_presence_badcd (env : Env) (ext : Prim) (st : DOState) (sid : String)
    (payload : Json) (ch a : String) (client : Client)
    (hc : mapGet st.clients sid = some client)
    (hch : jget payload "channel" = some (Json.str ch))
    (hpres : jsStartsWith ch "presence-" = true)
    (ha : jget payload "auth" = some (Json.str a))
    (hane : a ≠ "")
    (hkey : (jsSplit a ':').headD "" = env.PUSHER_APP_KEY)
    (hsig : (jsSplit a ':').get? 1 =
      some (hmac ext env.PUSHER_APP_SECRET (subBase sid ch payload)))
    (hcd : jsonParseJS ext (jget payload "channel_data") = none) :
    subscribe env ext st sid payload = (st, []) := by
  unfold subscribe
  simp only [hc, hch]
  rw [if_pos (by simp [hpres])]
  rw [if_neg (by simp [ha, jsTruthy, hane])]
  simp only [ha]
  rw [if_neg (fun h => h hkey)]
  rw [if_neg (fun h => h hsig)]
  rw [if_pos hpres]
  simp only [hcd]

/-- One registered session "A" with no subscriptions. -/
def stZ : DOState := ⟨[("A", ⟨[], none⟩)], [], []⟩

/-- A protected subscribe whose auth field is the JSON value `true`. -/
def payBadAuth : Json :=
  Json.obj [("channel", Json.str "private-x"), ("auth", Json.bool true)]

def payNoAuth : Json := Json.obj [("channel", Json.str "private-x")]

def payBadKey : Json :=
  Json.obj [("channel", Json.str "private-x"), ("auth", Json.str "b:")]

def payBadSig : Json :=
  Json.obj [("channel", Json.str "private-x"), ("auth", Json.str "k:zz")]

/-- C3 counterexample to the claim as stated: on `private-x` with
    `auth: true` the auth check fails (auth is present and truthy but has no
    key:signature form), yet the code throws at `auth.split` and sends no
    `pusher:error` frame at all, where the claim requires exactly one. -/
theorem C3_counterexample_nonstring_auth :
    jget payBadAuth "auth" = some (Json.bool true) ∧
    jsTruthy (jget payBadAuth "auth") = true ∧
    subscribe envT extT stZ "A" payBadAuth = (stZ, []) :=
  ⟨by decide, by decide, by decide⟩

/-- C3 (amended): on a protected channel, with auth absent/falsy or a string:
    a falsy auth, a wrong key, or a wrong signature each produce exactly one
    pusher:error code 4009 to the requester and leave the whole state
    unchanged; a truthy non-string auth is dropped silently with no reply;
    and whenever the auth token is not a string of the form key:signature
    with the configured key and the lowercase-hex HMAC-SHA256 signature of
    "{session_id}:{channel_name}[:{channel_data}]" under the secret, the
    state (including the channel's subscriber set and the session registry)
    is unchanged. -/
theorem C3_protected_auth (env : Env) (ext : Prim) (st : DOState) (sid : String)
    (payload : Json) (ch : String) (client : Client)
    (hc : mapGet st.clients sid = some client)
    (hch : jget payload "channel" = some (Json.str ch))
    (hprot : (jsStartsWith ch "private-" || jsStartsWith ch "presence-") = true) :
    (jsTruthy (jget payload "auth") = false →
      subscribe env ext st sid payload =
        (st, [⟨sid, OutFrame.err "Auth required" 4009⟩])) ∧
    (∀ a, jget payload "auth" = some (Json.str a) → a ≠ "" →
      (jsSplit a ':').headD "" ≠ env.PUSHER_APP_KEY →
      subscribe env ext st sid payload =
        (st, [⟨sid, OutFrame.err "Invalid key" 4009⟩])) ∧
    (∀ a, jget payload "auth" = some (Json.str a) → a ≠ "" →
      (jsSplit a ':').headD "" = env.PUSHER_APP_KEY →
      (jsSplit a ':').get? 1 ≠
        some (hmac ext env.PUSHER_APP_SECRET (subBase sid ch payload)) →
      subscribe env ext st sid payload =
        (st, [⟨sid, OutFrame.err "Invalid signature" 4009⟩])) ∧
    (∀ v, jget payload "auth" = some v → jsTruthy (some v) = true →
      (∀ s2, v ≠ Json.str s2) →
      subscribe env ext st sid payload = (st, [])) ∧
    ((¬ ∃ a, jget payload "auth" = some (Json.str a) ∧ a ≠ "" ∧
        (jsSplit a ':').headD "" = env.PUSHER_APP_KEY ∧
        (jsSplit a ':').get? 1 =
          some (hmac ext env.PUSHER_APP_SECRET (subBase sid ch payload))) →
      (subscribe env ext st sid payload).1 = st) := by
  refine ⟨?_, ?_, ?_, ?_, ?_⟩
  · intro hfalsy
    exact subscribe_auth_missing env ext st sid payload ch client hc hch hprot hfalsy
  · intro a ha hane hkey
    exact subscribe_bad_key env ext st sid payload ch a client hc hch hprot ha hane hkey
  · intro a ha hane hkey hsig
    exact subscribe_bad_sig env ext st sid payload ch a client hc hch hprot ha hane hkey hsig
  · intro v ha htr hns
    exact subscribe_auth_nonstring env ext st sid payload ch v client hc hch hprot ha htr hns
  · intro hnot
    by_cases hfalsy : jsTruthy (jget payload "auth") = false
    · rw [subscribe_auth_missing env ext st sid payload ch client hc hch hprot hfalsy]
    · have htr : jsTruthy (jget payload "auth") = true := by
        cases h2 : jsTruthy (jget payload "auth")
        · exact absurd h2 hfalsy
        · rfl
      cases ha : jget payload "auth" with
      | none => rw [ha] at htr; exact absurd htr (by simp [jsTruthy])
      | some v =>
        cases v with
        | str a =>
          have hane : a ≠ "" := by
            rw [ha] at htr
            simpa [jsTruthy] using htr
          by_cases hkey : (jsSplit a ':').headD "" = env.PUSHER_APP_KEY
          · by_cases hsig : (jsSplit a ':').get? 1 =
                some (hmac ext env.PUSHER_APP_SECRET (subBase sid ch payload))
            · exact absurd ⟨a, ha, hane, hkey, hsig⟩ hnot
            · rw [subscribe_bad_sig env ext st sid payload ch a client hc hch hprot
                ha hane hkey hsig]
          · rw [subscribe_bad_key env ext st sid payload ch a client hc hch hprot
              ha hane hkey]
        | null => rw [ha] at htr; exact absurd htr (by simp [jsTruthy])
        | bool b =>
          rw [subscribe_auth_nonstring env ext st sid payload ch (Json.bool b) client
            hc hch hprot ha (ha ▸ htr) (fun s2 h => Json.noConfusion h)]
        | num n =>
          rw [subscribe_auth_nonstring env ext st sid payload ch (Json.num n) client
            hc hch hprot ha (ha ▸ htr) (fun s2 h => Json.noConfusion h)]
        | arr xs =>
          rw [subscribe_auth_nonstring env ext st sid payload ch (Json.arr xs) client
            hc hch hprot ha (ha ▸ htr) (fun s2 h => Json.noConfusion h)]
        | obj fs =>
          rw [subscribe_auth_nonstring env ext st sid payload ch (Json.obj fs) client
            hc hch hprot ha (ha ▸ htr) (fun s2 h => Json.noConfusion h)]

/-- Witness for the amended C3 at concrete payloads: each failure mode. -/
theorem C3_protected_auth_witness :
    subscribe envT extT stZ "A" payNoAuth =
      (stZ, [⟨"A", OutFrame.err "Auth required" 4009⟩]) ∧
    subscribe envT extT stZ "A" payBadKey =
      (stZ, [⟨"A", OutFrame.err "Invalid key" 4009⟩]) ∧
    subscribe envT extT stZ "A" payBadSig =
      (stZ, [⟨"A", OutFrame.err "Invalid signature" 4009⟩]) ∧
    subscribe envT extT stZ "A" payBadAuth = (stZ, []) ∧
    (subscribe envT extT stZ "A" payNoAuth).1 = stZ :=
  ⟨(C3_protected_auth envT extT stZ "A" payNoAuth "private-x" ⟨[], none⟩
      (by decide) (by decide) (by decide)).1 (by decide),
   (C3_protected_auth envT extT stZ "A" payBadKey "private-x" ⟨[], none⟩
      (by decide) (by decide) (by decide)).2.1 "b:" (by decide) (by decide) (by decide),
   (C3_protected_auth envT extT stZ "A" payBadSig "private-x" ⟨[], none⟩
      (by decide) (by decide) (by decide)).2.2.1 "k:zz" (by decide) (by decide)
      (by decide) (by decide),
   (C3_protected_auth envT extT stZ "A" payBadAuth "private-x" ⟨[], none⟩
      (by decide) (by decide) (by decide)).2.2.2.1 (Json.bool true) (by decide)
      (by decide) (fun s2 h => Json.noConfusion h),
   (C3_protected_auth envT extT stZ "A" payNoAuth "private-x" ⟨[], none⟩
      (by decide) (by decide) (by decide)).2.2.2.2
      (by
        rintro ⟨a, ha, -⟩
        rw [show jget payNoAuth "auth" = none from by decide] at ha
        exact Option.noConfusion ha)⟩

/-- An envelope whose data field names a subscribe but does not parse. -/
def msgSubBad : Json :=
  Json.obj [("event", Json.str "pusher:subscribe"), ("data", Json.str "bad")]

/-- Primitives for the C2 witness: the envelope "m" parses, nothing else. -/
def extC2 : Prim :=
  ⟨fun s => if s = "m" then some msgSubBad else none, fun _ _ => []⟩

/-- C2: a malformed inbound payload is dropped silently.  (1) A frame that is
    not valid JSON produces no reply and no state change.  (2) An envelope
    whose event is pusher:subscribe or pusher:unsubscribe but whose data
    string does not parse produces no reply and no state change.  (3) A
    presence subscribe passing auth whose channel_data does not parse
    produces no reply and no state change. -/
theorem C2_malformed_silent_drop (env : Env) (ext : Prim) (st : DOState)
    (sid raw : String) :
    (ext.jsonParse raw = none → onMessage env ext st sid raw = (st, [])) ∧
    (∀ msg, ext.jsonParse raw = some msg →
      (jget msg "event" = some (Json.str "pusher:subscribe") ∨
       jget msg "event" = some (Json.str "pusher:unsubscribe")) →
      ext.jsonParse (dataField msg) = none →
      onMessage env ext st sid raw = (st, [])) ∧
    (∀ payload ch a client, mapGet st.clients sid = some client →
      jget payload "channel" = some (Json.str ch) →
      jsStartsWith ch "presence-" = true →
      jget payload "auth" = some (Json.str a) → a ≠ "" →
      (jsSplit a ':').headD "" = env.PUSHER_APP_KEY →
      (jsSplit a ':').get? 1 =
        some (hmac ext env.PUSHER_APP_SECRET (subBase sid ch payload)) →
      jsonParseJS ext (jget payload "channel_data") = none →
      subscribe env ext st sid payload = (st, [])) := by
  refine ⟨?_, ?_, ?_⟩
  · intro h
    unfold onMessage
    rw [h]
  · intro msg hmsg hev hdata
    unfold onMessage
    rw [hmsg]
    dsimp only
    rcases hev with hev | hev
    · rw [if_neg (by rw [hev]; simp), if_pos hev, hdata]
    · rw [if_neg (by rw [hev]; simp), if_neg (by rw [hev]; simp), if_pos hev, hdata]
  · intro payload ch a client hc hch hpres ha hane hkey hsig hcd
    exact subscribe_presence_badcd env ext st sid payload ch a client
      hc hch hpres ha hane hkey hsig hcd

/-- Witness for C2: a non-JSON frame, a subscribe with non-JSON data, and a
    presence subscribe with non-JSON channel_data, each at concrete inputs. -/
theorem C2_malformed_silent_drop_witness :
    onMessage envT extT stZ "A" "bad" = (stZ, []) ∧
    onMessage envT extC2 stZ "A" "m" = (stZ, []) ∧
    subscribe envT extT stZ "A" (payP "presence-r" "bad") = (stZ, []) :=
  ⟨(C2_malformed_silent_drop envT extT stZ "A" "bad").1 (by decide),
   (C2_malformed_silent_drop envT extC2 stZ "A" "m").2.1 msgSubBad (by decide)
     (Or.inl (by decide)) (by decide),
   (C2_malformed_silent_drop envT extT stZ "A" "x").2.2 (payP "presence-r" "bad")
     "presence-r" "k:" ⟨[], none⟩ (by decide) (by decide) (by decide) (by decide)
     (by decide) (by decide) (by decide) (by decide)⟩

theorem mem_keys_mapSet {α β : Type} [DecidableEq α] (m : List (α × β)) (k : α)
    (v : β) : k ∈ (mapSet m k v).map Prod.fst := by
  induction m with
  | nil => simp [mapSet]
  | cons hd tl ih =>
      obtain ⟨a, b⟩ := hd
      by_cases hak : a = k
      · simp [mapSet, if_pos hak]
      · simp only [mapSet, if_neg hak, List.map_cons, List.mem_cons]
        exact Or.inr ih

/-- Two sessions "A" and "B", registered, not subscribed anywhere. -/
def stAB : DOState := ⟨[("A", ⟨[], none⟩), ("B", ⟨[], none⟩)], [], []⟩

/-- On a presence channel both acknowledgment frames head the send list, and
    their snapshot is read from the presence store of the state
    `finishSubscribe` runs on. -/
theorem finishSubscribe_presence_head (st : DOState) (sid ch : String)
    (client : Client) (hpres : jsStartsWith ch "presence-" = true) :
    ∃ rest, (finishSubscribe st sid ch client).2 =
      ⟨sid, OutFrame.subSucceededInternalPresence ch
         (((mapGet st.presence ch).getD []).map Prod.fst)
         (((mapGet st.presence ch).getD []).map (fun m => (jsPropKey m.1, m.2)))
         (((mapGet st.presence ch).getD []).map Prod.fst).length⟩ ::
      ⟨sid, OutFrame.subSucceededPresence ch
         (((mapGet st.presence ch).getD []).map Prod.fst).length⟩ :: rest := by
  unfold finishSubscribe
  rw [if_pos hpres]
  dsimp only
  cases client.user with
  | none => exact ⟨[], by simp⟩
  | some u => exact ⟨_, rfl⟩

/-- C4: a successful presence subscribe acknowledges the joiner with a
    snapshot (ids, hash, count) computed after the joiner was written to the
    presence store, so the joiner's own user id is always among the ids and
    the count is the length of the ids; concretely, the second of two joiners
    receives a snapshot with count 2 listing both user ids. -/
theorem C4_presence_snapshot (env : Env) (ext : Prim) (st : DOState) (sid : String)
    (payload : Json) (ch a : String) (cd : Json) (client : Client)
    (hc : mapGet st.clients sid = some client)
    (hch : jget payload "channel" = some (Json.str ch))
    (hpres : jsStartsWith ch "presence-" = true)
    (ha : jget payload "auth" = some (Json.str a))
    (hane : a ≠ "")
    (hkey : (jsSplit a ':').headD "" = env.PUSHER_APP_KEY)
    (hsig : (jsSplit a ':').get? 1 =
      some (hmac ext env.PUSHER_APP_SECRET (subBase sid ch payload)))
    (hcd : jsonParseJS ext (jget payload "channel_data") = some cd)
    (hnn : cd ≠ Json.null) :
    (∃ ids hash rest,
      (subscribe env ext st sid payload).2 =
        ⟨sid, OutFrame.subSucceededInternalPresence ch ids hash ids.length⟩ ::
        ⟨sid, OutFrame.subSucceededPresence ch ids.length⟩ :: rest ∧
      jget cd "user_id" ∈ ids ∧ 1 ≤ ids.length) ∧
    (subscribe envT extT (subscribe envT extT stAB "A" (payP "presence-r" "cd1")).1
        "B" (payP "presence-r" "cd2")).2 =
      [⟨"B", OutFrame.subSucceededInternalPresence "presence-r"
          [some (Json.str "u1"), some (Json.str "u2")]
          [("u1", some (Json.str "i1")), ("u2", some (Json.str "i2"))] 2⟩,
       ⟨"B", OutFrame.subSucceededPresence "presence-r" 2⟩,
       ⟨"A", OutFrame.memberAdded "presence-r" (some (Json.str "u2"))
          (some (Json.str "i2"))⟩] := by
  constructor
  · rw [subscribe_presence_eq env ext st sid payload ch a cd client hc hch hpres ha
      hane hkey hsig hcd hnn]
    obtain ⟨rest, hrest⟩ := finishSubscribe_presence_head
      ⟨mapSet st.clients sid
         { client with user := some ⟨jget cd "user_id", jget cd "user_info"⟩ },
       st.channels,
       mapSet st.presence ch
         (mapSet ((mapGet st.presence ch).getD [])
           (jget cd "user_id") (jget cd "user_info"))⟩
      sid ch { client with user := some ⟨jget cd "user_id", jget cd "user_info"⟩ } hpres
    rw [show mapGet (mapSet st.presence ch
         (mapSet ((mapGet st.presence ch).getD [])
           (jget cd "user_id") (jget cd "user_info"))) ch =
        some (mapSet ((mapGet st.presence ch).getD [])
           (jget cd "user_id") (jget cd "user_info")) by
      rw [mapGet_mapSet, if_pos rfl]] at hrest
    refine ⟨_, _, rest, hrest, mem_keys_mapSet _ _ _, ?_⟩
    have hne : (mapSet ((mapGet st.presence ch).getD [])
        (jget cd "user_id") (jget cd "user_info")).map Prod.fst ≠ [] :=
      List.ne_nil_of_mem (mem_keys_mapSet _ _ _)
    exact List.length_pos.mpr hne
  · decide

/-- Witness for C4: the second joiner of presence-r. -/
theorem C4_presence_snapshot_witness :
    ∃ ids hash rest,
      (subscribe envT extT (subscribe envT extT stAB "A" (payP "presence-r" "cd1")).1
          "B" (payP "presence-r" "cd2")).2 =
        ⟨"B", OutFrame.subSucceededInternalPresence "presence-r" ids hash ids.length⟩ ::
        ⟨"B", OutFrame.subSucceededPresence "presence-r" ids.length⟩ :: rest ∧
      jget cdU2 "user_id" ∈ ids ∧ 1 ≤ ids.length :=
  (C4_presence_snapshot envT extT
    (subscribe envT extT stAB "A" (payP "presence-r" "cd1")).1 "B"
    (payP "presence-r" "cd2") "presence-r" "k:" cdU2 ⟨[], none⟩ (by decide)
    (by decide) (by decide) (by decide) (by decide) (by decide) (by decide)
    (by decide) (by decide)).1

def isMemberAdded : OutFrame → Bool
  | OutFrame.memberAdded _ _ _ => true
  | _ => false

/-- Registered-subscriber fact extracted from the coherence invariant. -/
theorem reg_of_inv (st : DOState) (ch : String) (hinv : StateInv st) :
    ∀ s, s ∈ subsOf st ch → (mapGet st.clients s).isSome = true := by
  intro s hs
  have h2 := (hinv s ch).mp hs
  cases hget : mapGet st.clients s with
  | none => rw [chansOf, hget] at h2; simp at h2
  | some c => simp

/-- Recipients of the member_added fan-out: exactly the subscribers after the
    join, except the joiner (given every subscriber is registered). -/
theorem finishSubscribe_memberAdded_iff (st : DOState) (sid ch : String)
    (client : Client) (u : UserIdent) (r : String)
    (hpres : jsStartsWith ch "presence-" = true)
    (hu : client.user = some u)
    (hreg : ∀ s, s ∈ subsOf st ch → (mapGet st.clients s).isSome = true) :
    ((⟨r, OutFrame.memberAdded ch u.id u.info⟩ : Send) ∈
        (finishSubscribe st sid ch client).2 ↔
      (r ∈ setAdd (subsOf st ch) sid ∧ r ≠ sid)) := by
  unfold finishSubscribe
  rw [if_pos hpres]
  dsimp only
  rw [hu]
  dsimp only
  rw [List.mem_append]
  constructor
  · rintro (hbase | hadds)
    · exact absurd hbase (by simp)
    · obtain ⟨s, hs, hf⟩ := List.mem_filterMap.mp hadds
      by_cases hssid : s = sid
      · rw [if_pos hssid] at hf
        exact Option.noConfusion hf
      · rw [if_neg hssid] at hf
        by_cases hrg : (mapGet (mapSet st.clients sid
            ⟨setAdd client.channels ch, some u⟩) s).isSome = true
        · rw [if_pos hrg] at hf
          obtain ⟨hd, -⟩ := Send.mk.injEq .. ▸ (Option.some.inj hf)
          subst hd
          exact ⟨hs, hssid⟩
        · rw [if_neg hrg] at hf
          exact Option.noConfusion hf
  · rintro ⟨hr, hrsid⟩
    refine Or.inr (List.mem_filterMap.mpr ⟨r, hr, ?_⟩)
    rw [if_neg hrsid]
    have hrsub : r ∈ subsOf st ch := by
      rcases (mem_setAdd _ _ _).mp hr with h | h
      · exact h
      · exact absurd h hrsid
    have hrg : (mapGet (mapSet st.clients sid
        ⟨setAdd client.channels ch, some u⟩) r).isSome = true := by
      rw [mapGet_mapSet, if_neg (fun he => hrsid he.symm)]
      exact hreg r hrsub
    rw [if_pos hrg]
  
/-- The joiner never receives a member_added frame from its own subscribe. -/
theorem finishSubscribe_joiner_no_memberAdded (st : DOState) (sid ch : String)
    (client : Client) (f : OutFrame)
    (h : (⟨sid, f⟩ : Send) ∈ (finishSubscribe st sid ch client).2) :
    isMemberAdded f = false := by
  unfold finishSubscribe at h
  by_cases hpres : jsStartsWith ch "presence-" = true
  · rw [if_pos hpres] at h
    dsimp only at h
    cases hu : client.user with
    | none =>
        rw [hu] at h
        dsimp only at h
        simp only [List.mem_cons, List.not_mem_nil, or_false] at h
        rcases h with h | h
        · injection h with h1 h2; rw [h2]; rfl
        · injection h with h1 h2; rw [h2]; rfl
    | some u =>
        rw [hu] at h
        dsimp only at h
        rw [List.mem_append] at h
        rcases h with h | h
        · simp only [List.mem_cons, List.not_mem_nil, or_false] at h
          rcases h with h | h
          · injection h with h1 h2; rw [h2]; rfl
          · injection h with h1 h2; rw [h2]; rfl
        · obtain ⟨s, hs, hf⟩ := List.mem_filterMap.mp h
          by_cases hssid : s = sid
          · rw [if_pos hssid] at hf
            exact Option.noConfusion hf
          · rw [if_neg hssid] at hf
            by_cases hrg : (mapGet (mapSet st.clients sid
                ⟨setAdd client.channels ch, some u⟩) s).isSome = true
            · rw [if_pos hrg] at hf
              exact absurd (congrArg Send.dest (Option.some.inj hf)) hssid
            · rw [if_neg hrg] at hf
              exact Option.noConfusion hf
  · rw [if_neg hpres] at h
    simp only [List.mem_cons, List.not_mem_nil, or_false] at h
    rcases h with h | h
    · injection h with h1 h2; rw [h2]; rfl
    · injection h with h1 h2; rw [h2]; rfl

/-- Recipients of the member_removed fan-out: exactly the subscribers that
    remain after the leave; the leaver receives nothing at all. -/
theorem unsubscribe_memberRemoved_iff (st : DOState) (sid ch : String)
    (client : Client) (u : UserIdent)
    (hinv : StateInv st)
    (hc : mapGet st.clients sid = some client)
    (hpres : jsStartsWith ch "presence-" = true)
    (hu : client.user = some u) :
    (∀ r, ((⟨r, OutFrame.memberRemoved ch u.id⟩ : Send) ∈ (unsubscribe st sid ch).2 ↔
      (r ∈ subsOf st ch ∧ r ≠ sid))) ∧
    (∀ f, (⟨sid, f⟩ : Send) ∈ (unsubscribe st sid ch).2 → False) := by
  have hsends : (unsubscribe st sid ch).2 =
      (((mapGet st.channels ch).map (fun s => setDelete s sid)).getD []).filterMap
        (fun s => if (mapGet (mapSet st.clients sid
            ⟨setDelete client.channels ch, some u⟩) s).isSome = true then
            some ⟨s, OutFrame.memberRemoved ch u.id⟩ else none) := by
    unfold unsubscribe
    rw [hc]
    dsimp only
    rw [hu]
    rw [if_pos hpres]
  rw [hsends]
  have hreg := reg_of_inv st ch hinv
  constructor
  · intro r
    constructor
    · intro h
      obtain ⟨s, hs, hf⟩ := List.mem_filterMap.mp h
      cases h0 : mapGet st.channels ch with
      | none =>
          rw [h0] at hs
          exact absurd hs (List.not_mem_nil s)
      | some s0 =>
          rw [h0] at hs
          simp only [Option.map_some', Option.getD_some] at hs
          by_cases hrg : (mapGet (mapSet st.clients sid
              ⟨setDelete client.channels ch, some u⟩) s).isSome = true
          · rw [if_pos hrg] at hf
            have hd := congrArg Send.dest (Option.some.inj hf)
            dsimp only at hd
            subst hd
            rw [mem_setDelete] at hs
            exact ⟨by rw [subsOf, h0]; exact hs.1, hs.2⟩
          · rw [if_neg hrg] at hf
            exact Option.noConfusion hf
    · rintro ⟨hr, hrsid⟩
      cases h0 : mapGet st.channels ch with
      | none =>
          rw [subsOf, h0] at hr
          exact absurd hr (List.not_mem_nil r)
      | some s0 =>
          refine List.mem_filterMap.mpr ⟨r, ?_, ?_⟩
          · simp only [Option.map_some', Option.getD_some, mem_setDelete]
            rw [subsOf, h0] at hr
            exact ⟨hr, hrsid⟩
          · rw [if_pos (by
              rw [mapGet_mapSet, if_neg (fun he => hrsid he.symm)]
              exact hreg r hr)]
  · intro f h
    obtain ⟨s, hs, hf⟩ := List.mem_filterMap.mp h
    cases h0 : mapGet st.channels ch with
    | none =>
        rw [h0] at hs
        exact absurd hs (List.not_mem_nil s)
    | some s0 =>
        rw [h0] at hs
        simp only [Option.map_some', Option.getD_some, mem_setDelete] at hs
        by_cases hrg : (mapGet (mapSet st.clients sid
            ⟨setDelete client.channels ch, some u⟩) s).isSome = true
        · rw [if_pos hrg] at hf
          have hd := congrArg Send.dest (Option.some.inj hf)
          dsimp only at hd
          exact hs.2 hd
        · rw [if_neg hrg] at hf
          exact Option.noConfusion hf

theorem subsOf_finishSubscribe (st : DOState) (sid ch : String) (client : Client) :
    subsOf (finishSubscribe st sid ch client).1 ch = setAdd (subsOf st ch) sid := by
  rw [finishSubscribe_fst]
  dsimp only [subsOf]
  rw [mapGet_mapSet, if_pos rfl]
  rfl

/-- C5: on a successful presence subscribe, member_added {user_id, user_info}
    goes to exactly the other current subscribers and never to the joiner; on
    a presence unsubscribe by an identified session, member_removed {user_id}
    goes to exactly the remaining subscribers and never to the leaver. -/
theorem C5_member_events (env : Env) (ext : Prim) (st : DOState) (sid : String)
    (hinv : StateInv st) :
    (∀ payload ch a cd client,
      mapGet st.clients sid = some client →
      jget payload "channel" = some (Json.str ch) →
      jsStartsWith ch "presence-" = true →
      jget payload "auth" = some (Json.str a) → a ≠ "" →
      (jsSplit a ':').headD "" = env.PUSHER_APP_KEY →
      (jsSplit a ':').get? 1 =
        some (hmac ext env.PUSHER_APP_SECRET (subBase sid ch payload)) →
      jsonParseJS ext (jget payload "channel_data") = some cd → cd ≠ Json.null →
      (∀ r, ((⟨r, OutFrame.memberAdded ch (jget cd "user_id")
            (jget cd "user_info")⟩ : Send) ∈ (subscribe env ext st sid payload).2 ↔
        (r ∈ subsOf (subscribe env ext st sid payload).1 ch ∧ r ≠ sid))) ∧
      (∀ f, (⟨sid, f⟩ : Send) ∈ (subscribe env ext st sid payload).2 →
        isMemberAdded f = false)) ∧
    (∀ ch client u,
      mapGet st.clients sid = some client →
      jsStartsWith ch "presence-" = true →
      client.user = some u →
      (∀ r, ((⟨r, OutFrame.memberRemoved ch u.id⟩ : Send) ∈
          (unsubscribe st sid ch).2 ↔ (r ∈ subsOf st ch ∧ r ≠ sid))) ∧
      (∀ f, (⟨sid, f⟩ : Send) ∈ (unsubscribe st sid ch).2 → False)) := by
  constructor
  · intro payload ch a cd client hc hch hpres ha hane hkey hsig hcd hnn
    rw [subscribe_presence_eq env ext st sid payload ch a cd client hc hch hpres ha
      hane hkey hsig hcd hnn]
    constructor
    · intro r
      rw [subsOf_finishSubscribe]
      have hreg2 : ∀ s, s ∈ subsOf
          (⟨mapSet st.clients sid
             { client with user := some ⟨jget cd "user_id", jget cd "user_info"⟩ },
            st.channels,
            mapSet st.presence ch
              (mapSet ((mapGet st.presence ch).getD [])
                (jget cd "user_id") (jget cd "user_info"))⟩ : DOState) ch →
          (mapGet (mapSet st.clients sid
            { client with user := some ⟨jget cd "user_id", jget cd "user_info"⟩ })
              s).isSome = true := by
        intro s hs
        rw [mapGet_mapSet]
        by_cases hss : sid = s
        · rw [if_pos hss]; rfl
        · rw [if_neg hss]
          exact reg_of_inv st ch hinv s hs
      exact finishSubscribe_memberAdded_iff _ sid ch
        { client with user := some ⟨jget cd "user_id", jget cd "user_info"⟩ }
        ⟨jget cd "user_id", jget cd "user_info"⟩ r hpres rfl hreg2
    · intro f hf
      exact finishSubscribe_joiner_no_memberAdded _ sid ch _ f hf
  · intro ch client u hc hpres hu
    exact unsubscribe_memberRemoved_iff st sid ch client u hinv hc hpres hu

theorem stateInv_stAB : StateInv stAB := by
  intro sid ch
  simp only [stAB, subsOf, chansOf, mapGet]
  constructor
  · intro h
    exact absurd h (List.not_mem_nil _)
  · intro h
    by_cases h1 : "A" = sid <;> by_cases h2 : "B" = sid <;>
      simp [h1, h2] at h

/-- Witness for C5: B joins presence-r after A (member_added side), then A
    leaves presence-r (member_removed side). -/
theorem C5_member_events_witness :
    ((⟨"A", OutFrame.memberAdded "presence-r" (jget cdU2 "user_id")
        (jget cdU2 "user_info")⟩ : Send) ∈
      (subscribe envT extT (subscribe envT extT stAB "A" (payP "presence-r" "cd1")).1
        "B" (payP "presence-r" "cd2")).2 ↔
      ("A" ∈ subsOf (subscribe envT extT
          (subscribe envT extT stAB "A" (payP "presence-r" "cd1")).1
          "B" (payP "presence-r" "cd2")).1 "presence-r" ∧ "A" ≠ "B")) ∧
    ((⟨"B", OutFrame.memberRemoved "presence-r"
        (⟨some (Json.str "u1"), some (Json.str "i1")⟩ : UserIdent).id⟩ : Send) ∈
      (unsubscribe (subscribe envT extT
          (subscribe envT extT stAB "A" (payP "presence-r" "cd1")).1
          "B" (payP "presence-r" "cd2")).1 "A" "presence-r").2 ↔
      ("B" ∈ subsOf (subscribe envT extT
          (subscribe envT extT stAB "A" (payP "presence-r" "cd1")).1
          "B" (payP "presence-r" "cd2")).1 "presence-r" ∧ "B" ≠ "A")) :=
  ⟨((C5_member_events envT extT
      (subscribe envT extT stAB "A" (payP "presence-r" "cd1")).1 "B"
      (stateInv_subscribe envT extT stAB "A" (payP "presence-r" "cd1")
        stateInv_stAB)).1
    (payP "presence-r" "cd2") "presence-r" "k:" cdU2 ⟨[], none⟩ (by decide)
    (by decide) (by decide) (by decide) (by decide) (by decide) (by decide)
    (by decide) (by decide)).1 "A",
   ((C5_member_events envT extT
      (subscribe envT extT (subscribe envT extT stAB "A" (payP "presence-r" "cd1")).1
        "B" (payP "presence-r" "cd2")).1 "A"
      (stateInv_subscribe envT extT
        (subscribe envT extT stAB "A" (payP "presence-r" "cd1")).1 "B"
        (payP "presence-r" "cd2")
        (stateInv_subscribe envT extT stAB "A" (payP "presence-r" "cd1")
          stateInv_stAB))).2
    "presence-r" ⟨["presence-r"], some ⟨some (Json.str "u1"), some (Json.str "i1")⟩⟩
    ⟨some (Json.str "u1"), some (Json.str "i1")⟩ (by decide) (by decide)
    (by decide)).1 "B"⟩

/-- C9: the session identity is a single mutable field.  (1) Every successful
    presence subscribe overwrites it with the ids from that channel_data,
    whatever it was before.  (2) A presence unsubscribe deletes from that
    channel's presence map the key equal to the session's CURRENT identity.
    (3) Every member_removed it announces carries the current identity.
    Concretely: B joins presence-r as u1, then presence-q as u2; B's identity
    is u2, and unsubscribing B from presence-r deletes key u2 (a no-op that
    leaves u1's entry in presence-r) and announces member_removed u2. -/
theorem C9_identity_overwrite (env : Env) (ext : Prim) (st : DOState) (sid : String) :
    (∀ payload ch a cd client,
      mapGet st.clients sid = some client →
      jget payload "channel" = some (Json.str ch) →
      jsStartsWith ch "presence-" = true →
      jget payload "auth" = some (Json.str a) → a ≠ "" →
      (jsSplit a ':').headD "" = env.PUSHER_APP_KEY →
      (jsSplit a ':').get? 1 =
        some (hmac ext env.PUSHER_APP_SECRET (subBase sid ch payload)) →
      jsonParseJS ext (jget payload "channel_data") = some cd → cd ≠ Json.null →
      mapGet (subscribe env ext st sid payload).1.clients sid =
        some ⟨setAdd client.channels ch,
              some ⟨jget cd "user_id", jget cd "user_info"⟩⟩) ∧
    (∀ ch client u members,
      mapGet st.clients sid = some client →
      jsStartsWith ch "presence-" = true →
      client.user = some u →
      mapGet st.presence ch = some members →
      mapGet (unsubscribe st sid ch).1.presence ch = some (mapDelete members u.id)) ∧
    (∀ ch client u s f,
      mapGet st.clients sid = some client →
      jsStartsWith ch "presence-" = true →
      client.user = some u →
      (⟨s, f⟩ : Send) ∈ (unsubscribe st sid ch).2 →
      f = OutFrame.memberRemoved ch u.id) ∧
    (mapGet (subscribe envT extT
        (subscribe envT extT
          (subscribe envT extT stAB "A" (payP "presence-r" "cda")).1
          "B" (payP "presence-r" "cd1")).1
        "B" (payP "presence-q" "cd2")).1.clients "B" =
      some ⟨["presence-r", "presence-q"],
            some ⟨some (Json.str "u2"), some (Json.str "i2")⟩⟩ ∧
     mapGet (unsubscribe (subscribe envT extT
        (subscribe envT extT
          (subscribe envT extT stAB "A" (payP "presence-r" "cda")).1
          "B" (payP "presence-r" "cd1")).1
        "B" (payP "presence-q" "cd2")).1 "B" "presence-r").1.presence "presence-r" =
      some [(some (Json.str "ua"), some (Json.str "ia")),
            (some (Json.str "u1"), some (Json.str "i1"))] ∧
     (unsubscribe (subscribe envT extT
        (subscribe envT extT
          (subscribe envT extT stAB "A" (payP "presence-r" "cda")).1
          "B" (payP "presence-r" "cd1")).1
        "B" (payP "presence-q" "cd2")).1 "B" "presence-r").2 =
      [⟨"A", OutFrame.memberRemoved "presence-r" (some (Json.str "u2"))⟩]) := by
  refine ⟨?_, ?_, ?_, by decide, by decide, by decide⟩
  · intro payload ch a cd client hc hch hpres ha hane hkey hsig hcd hnn
    rw [subscribe_presence_eq env ext st sid payload ch a cd client hc hch hpres ha
      hane hkey hsig hcd hnn]
    rw [finishSubscribe_fst]
    dsimp only
    rw [mapGet_mapSet, if_pos rfl]
  · intro ch client u members hc hpres hu hm
    unfold unsubscribe
    rw [hc]
    dsimp only
    rw [hu]
    rw [if_pos hpres]
    dsimp only
    rw [hm]
    dsimp only
    rw [mapGet_mapSet, if_pos rfl]
  · intro ch client u s f hc hpres hu hmem
    unfold unsubscribe at hmem
    rw [hc] at hmem
    dsimp only at hmem
    rw [hu] at hmem
    rw [if_pos hpres] at hmem
    dsimp only at hmem
    obtain ⟨s2, _, hf⟩ := List.mem_filterMap.mp hmem
    by_cases hrg : (mapGet (mapSet st.clients sid
        ⟨setDelete client.channels ch, some u⟩) s2).isSome = true
    · rw [if_pos hrg] at hf
      have hf2 := Option.some.inj hf
      injection hf2 with h1 h2
      exact h2.symm
    · rw [if_neg hrg] at hf
      exact Option.noConfusion hf

/-- Witness for C9: identity overwrite and current-identity deletion at the
    concrete scenario states. -/
theorem C9_identity_overwrite_witness :
    mapGet (subscribe envT extT
        (subscribe envT extT
          (subscribe envT extT stAB "A" (payP "presence-r" "cda")).1
          "B" (payP "presence-r" "cd1")).1
        "B" (payP "presence-q" "cd2")).1.clients "B" =
      some ⟨setAdd ["presence-r"] "presence-q",
            some ⟨jget cdU2 "user_id", jget cdU2 "user_info"⟩⟩ ∧
    mapGet (unsubscribe (subscribe envT extT
        (subscribe envT extT
          (subscribe envT extT stAB "A" (payP "presence-r" "cda")).1
          "B" (payP "presence-r" "cd1")).1
        "B" (payP "presence-q" "cd2")).1 "B" "presence-r").1.presence "presence-r" =
      some (mapDelete
        [(some (Json.str "ua"), some (Json.str "ia")),
         (some (Json.str "u1"), some (Json.str "i1"))]
        (some (Json.str "u2"))) :=
  ⟨(C9_identity_overwrite envT extT
      (subscribe envT extT
        (subscribe envT extT stAB "A" (payP "presence-r" "cda")).1
        "B" (payP "presence-r" "cd1")).1 "B").1
    (payP "presence-q" "cd2") "presence-q" "k:" cdU2
    ⟨["presence-r"], some ⟨some (Json.str "u1"), some (Json.str "i1")⟩⟩
    (by decide) (by decide) (by decide) (by decide) (by decide) (by decide)
    (by decide) (by decide) (by decide),
   (C9_identity_overwrite envT extT
      (subscribe envT extT
        (subscribe envT extT
          (subscribe envT extT stAB "A" (payP "presence-r" "cda")).1
          "B" (payP "presence-r" "cd1")).1
        "B" (payP "presence-q" "cd2")).1 "B").2.1
    "presence-r"
    ⟨["presence-r", "presence-q"], some ⟨some (Json.str "u2"), some (Json.str "i2")⟩⟩
    ⟨some (Json.str "u2"), some (Json.str "i2")⟩
    [(some (Json.str "ua"), some (Json.str "ia")),
     (some (Json.str "u1"), some (Json.str "i1"))]
    (by decide) (by decide) (by decide) (by decide)⟩

/-- C7: a client- event is relayed exactly when the sender is subscribed to
    the named channel and the channel is private or presence; a valid relay
    carries {event, channel, data, sender user id} to every other current
    subscriber and never to the sender; any violation drops the event with no
    reply; and no client event ever changes state. -/
theorem C7_client_relay (st : DOState) (sid ch ev d : String) :
    ((clientEvent st sid (some (Json.str ch)) ev d).1 = st) ∧
    (mapGet st.clients sid = none →
      clientEvent st sid (some (Json.str ch)) ev d = (st, [])) ∧
    (∀ client, mapGet st.clients sid = some client → ch ∉ client.channels →
      clientEvent st sid (some (Json.str ch)) ev d = (st, [])) ∧
    (∀ client, mapGet st.clients sid = some client →
      (jsStartsWith ch "private-" || jsStartsWith ch "presence-") = false →
      clientEvent st sid (some (Json.str ch)) ev d = (st, [])) ∧
    (∀ client, StateInv st → mapGet st.clients sid = some client →
      ch ∈ client.channels →
      (jsStartsWith ch "private-" || jsStartsWith ch "presence-") = true →
      (∀ r, ((⟨r, OutFrame.clientRelay ev ch d
            (client.user.bind (fun u => u.id))⟩ : Send) ∈
          (clientEvent st sid (some (Json.str ch)) ev d).2 ↔
        (r ∈ subsOf st ch ∧ r ≠ sid))) ∧
      (∀ f, (⟨sid, f⟩ : Send) ∈ (clientEvent st sid (some (Json.str ch)) ev d).2 →
        False)) := by
  refine ⟨clientEvent_fst st sid (some (Json.str ch)) ev d, ?_, ?_, ?_, ?_⟩
  · intro h
    unfold clientEvent
    rw [h]
  · intro client hc hnm
    unfold clientEvent
    rw [hc]
    dsimp only
    rw [if_neg hnm]
  · intro client hc hpub
    unfold clientEvent
    rw [hc]
    dsimp only
    by_cases hmem : ch ∈ client.channels
    · rw [if_pos hmem, if_neg (by simp [hpub])]
    · rw [if_neg hmem]
  · intro client hinv hc hmem hprot
    have hsid : sid ∈ subsOf st ch := (hinv sid ch).mpr (by
      rw [chansOf_of_get st sid client hc]
      exact hmem)
    cases h0 : mapGet st.channels ch with
    | none =>
        rw [subsOf, h0] at hsid
        exact absurd hsid (List.not_mem_nil _)
    | some set =>
      have hce : clientEvent st sid (some (Json.str ch)) ev d =
          (st, set.filterMap (fun s =>
            if s = sid then none
            else if (mapGet st.clients s).isSome then
              some ⟨s, OutFrame.clientRelay ev ch d
                (client.user.bind (fun u => u.id))⟩
            else none)) := by
        unfold clientEvent
        rw [hc]
        dsimp only
        rw [if_pos hmem, if_pos hprot, h0]
      rw [hce]
      have hreg := reg_of_inv st ch hinv
      constructor
      · intro r
        constructor
        · intro h
          obtain ⟨s, hs, hf⟩ := List.mem_filterMap.mp h
          by_cases hssid : s = sid
          · rw [if_pos hssid] at hf
            exact Option.noConfusion hf
          · rw [if_neg hssid] at hf
            by_cases hrg : (mapGet st.clients s).isSome = true
            · rw [if_pos hrg] at hf
              have hd := congrArg Send.dest (Option.some.inj hf)
              dsimp only at hd
              subst hd
              exact ⟨by rw [subsOf, h0]; exact hs, hssid⟩
            · rw [if_neg hrg] at hf
              exact Option.noConfusion hf
        · rintro ⟨hr, hrsid⟩
          rw [subsOf, h0] at hr
          refine List.mem_filterMap.mpr ⟨r, hr, ?_⟩
          rw [if_neg hrsid, if_pos (hreg r (by rw [subsOf, h0]; exact hr))]
      · intro f h
        obtain ⟨s, hs, hf⟩ := List.mem_filterMap.mp h
        by_cases hssid : s = sid
        · rw [if_pos hssid] at hf
          exact Option.noConfusion hf
        · rw [if_neg hssid] at hf
          by_cases hrg : (mapGet st.clients s).isSome = true
          · rw [if_pos hrg] at hf
            have hd := congrArg Send.dest (Option.some.inj hf)
            dsimp only at hd
            exact hssid hd
          · rw [if_neg hrg] at hf
            exact Option.noConfusion hf

/-- Sessions "A" and "B" both subscribed to private-chat. -/
def stPC : DOState :=
  ⟨[("A", ⟨["private-chat"], none⟩), ("B", ⟨["private-chat"], none⟩)],
   [("private-chat", ["A", "B"])], []⟩

theorem stateInv_two (a b c : String) (u v : Option UserIdent)
    (p : List (String × List (Option Json × Option Json))) (hab : a ≠ b) :
    StateInv ⟨[(a, ⟨[c], u⟩), (b, ⟨[c], v⟩)], [(c, [a, b])], p⟩ := by
  intro sid ch
  simp only [subsOf, chansOf, mapGet]
  by_cases h1 : c = ch <;> by_cases h2 : a = sid <;> by_cases h3 : b = sid <;>
    simp_all <;>
    first
    | exact ⟨fun he => h2 he.symm, fun he => h3 he.symm⟩
    | exact fun he => h1 he.symm

/-- Witness for C7: a relay on private-chat reaches the other subscriber and
    the same event on a public channel is dropped. -/
theorem C7_client_relay_witness :
    ((⟨"B", OutFrame.clientRelay "client-x" "private-chat" "hi"
        ((none : Option UserIdent).bind (fun u => u.id))⟩ : Send) ∈
      (clientEvent stPC "A" (some (Json.str "private-chat")) "client-x" "hi").2 ↔
      ("B" ∈ subsOf stPC "private-chat" ∧ "B" ≠ "A")) ∧
    clientEvent stPC "A" (some (Json.str "pub")) "client-x" "hi" = (stPC, []) :=
  ⟨((C7_client_relay stPC "A" "private-chat" "client-x" "hi").2.2.2.2
      ⟨["private-chat"], none⟩ (stateInv_two "A" "B" "private-chat" none none []
        (by decide))
      (by decide) (by decide) (by decide)).1 "B",
   (C7_client_relay stPC "A" "pub" "client-x" "hi").2.2.1
      ⟨["private-chat"], none⟩ (by decide) (by decide)⟩

/-- A list with no duplicates maps through `filterMap` to a list holding `t`
    exactly once, when exactly one element produces `t`. -/
theorem count_filterMap_one {α β : Type} [DecidableEq β] :
    ∀ (l : List α) (f : α → Option β) (t : β) (r : α),
    l.Nodup → r ∈ l → f r = some t → (∀ x, x ∈ l → f x = some t → x = r) →
    (l.filterMap f).count t = 1
  | [], _, _, _, _, hr, _, _ => absurd hr (List.not_mem_nil _)
  | a :: l, f, t, r, hnd, hr, hfr, huniq => by
      obtain ⟨hna, hndl⟩ := List.nodup_cons.mp hnd
      by_cases hra : r = a
      · subst hra
        simp only [List.filterMap_cons, hfr, List.count_cons_self]
        have h0 : (l.filterMap f).count t = 0 := by
          rw [List.count_eq_zero]
          intro hmem
          obtain ⟨x, hx, hfx⟩ := List.mem_filterMap.mp hmem
          exact hna ((huniq x (List.mem_cons_of_mem _ hx) hfx) ▸ hx)
        rw [h0]
      · have hrl : r ∈ l := by
          rcases List.mem_cons.mp hr with h | h
          · exact absurd h hra
          · exact h
        have ih := count_filterMap_one l f t r hndl hrl hfr
          (fun x hx hfx => huniq x (List.mem_cons_of_mem _ hx) hfx)
        cases hfa : f a with
        | none =>
            simp only [List.filterMap_cons, hfa]
            exact ih
        | some b =>
            have hbt : ¬ t = b := fun he =>
              hra ((huniq a (List.mem_cons_self a l) (by rw [hfa, he])).symm)
            simp only [List.filterMap_cons, hfa, List.count_cons]
            rw [ih, if_neg (fun he => hbt ((beq_iff_eq.mp he).symm))]

/-- `broadcast` on a body whose channels field is a list of channel names. -/
theorem broadcast_sends_eq (st : DOState) (body : Json) (names : List String)
    (hch : jget body "channels" = some (Json.arr (names.map Json.str))) :
    (broadcast st body).2 = names.flatMap (fun c =>
      match mapGet st.channels c with
      | none => []
      | some set => set.filterMap (fun s =>
          if (match jget body "socket_id" with
              | some (Json.str x) => s == x
              | _ => false) then none
          else if (mapGet st.clients s).isSome then
            some ⟨s, OutFrame.broadcastEvt (jget body "name") c (jget body "data")⟩
          else none)) := by
  unfold broadcast
  rw [hch]
  clear hch
  dsimp only
  induction names with
  | nil => rfl
  | cons c rest ih =>
      rw [List.map_cons, List.flatMap_cons, List.flatMap_cons, ih]

/-- Counting across a fan-out over distinct channels: one channel's chunk
    holds the frame once and every other chunk misses it. -/
theorem count_flatMap_one {α β : Type} [DecidableEq β] (g : α → List β) (t : β) :
    ∀ (L : List α) (c : α), L.Nodup → c ∈ L → (g c).count t = 1 →
    (∀ c2, c2 ≠ c → ∀ x ∈ g c2, x ≠ t) →
    (L.flatMap g).count t = 1
  | [], c, _, hc, _, _ => absurd hc (List.not_mem_nil _)
  | a :: L, c, hnd, hc, hgc, hother => by
      obtain ⟨hna, hndl⟩ := List.nodup_cons.mp hnd
      rw [List.flatMap_cons, List.count_append]
      by_cases hca : c = a
      · subst hca
        rw [hgc]
        have h0 : (L.flatMap g).count t = 0 := by
          rw [List.count_eq_zero]
          intro hmem
          obtain ⟨c2, hc2, hx⟩ := List.mem_flatMap.mp hmem
          exact hother c2 (fun he => hna (he ▸ hc2)) t hx rfl
        rw [h0]
      · have hcL : c ∈ L := by
          rcases List.mem_cons.mp hc with h | h
          · exact absurd h hca
          · exact h
        have h0 : (g a).count t = 0 := by
          rw [List.count_eq_zero]
          intro hmem
          exact hother a (fun he => hca he.symm) t hmem rfl
        rw [h0, count_flatMap_one g t L c hndl hcL hgc hother]

/-- Sessions "X" and "Y" subscribed to test-channel. -/
def stXY : DOState :=
  ⟨[("X", ⟨["test-channel"], none⟩), ("Y", ⟨["test-channel"], none⟩)],
   [("test-channel", ["X", "Y"])], []⟩

def bodyXY : Json :=
  Json.obj [("name", Json.str "test-event"), ("data", Json.str "hi"),
            ("channels", Json.arr [Json.str "test-channel"])]

/-- C8 counterexample to the claim as stated: a publish whose channel list
    names test-channel "c" twice delivers the frame to subscriber "A" twice,
    not exactly once. -/
theorem C8_counterexample_duplicate_channels :
    (broadcast stA (Json.obj [("name", Json.str "test-event"),
        ("data", Json.str "hi"),
        ("channels", Json.arr [Json.str "c", Json.str "c"])])).2.count
      ⟨"A", OutFrame.broadcastEvt (some (Json.str "test-event")) "c"
        (some (Json.str "hi"))⟩ = 2 := by decide

/-- C8 (amended): broadcast never changes state; for a publish whose channel
    list has no duplicate names, the frame {event: name, channel, data} is
    delivered exactly once to every current subscriber of each listed channel
    other than the session matching socket_id; a session matching socket_id
    receives nothing at all; and the spec's two-subscriber scenario delivers
    to both X and Y. -/
theorem C8_broadcast_exactly_once (st : DOState) (body : Json)
    (names : List String) (ch r ex : String) (hinv : StateInv st) :
    ((broadcast st body).1 = st) ∧
    (jget body "channels" = some (Json.arr (names.map Json.str)) →
      names.Nodup → (subsOf st ch).Nodup → ch ∈ names → r ∈ subsOf st ch →
      (match jget body "socket_id" with
       | some (Json.str x) => r == x
       | _ => false) = false →
      (broadcast st body).2.count
        ⟨r, OutFrame.broadcastEvt (jget body "name") ch (jget body "data")⟩ = 1) ∧
    (jget body "socket_id" = some (Json.str ex) →
      ∀ f, (⟨ex, f⟩ : Send) ∈ (broadcast st body).2 → False) ∧
    broadcast stXY bodyXY = (stXY,
      [⟨"X", OutFrame.broadcastEvt (some (Json.str "test-event")) "test-channel"
          (some (Json.str "hi"))⟩,
       ⟨"Y", OutFrame.broadcastEvt (some (Json.str "test-event")) "test-channel"
          (some (Json.str "hi"))⟩]) := by
  refine ⟨broadcast_fst st body, ?_, ?_, by decide⟩
  · intro hch hnd hsnd hcin hr hnex
    rw [broadcast_sends_eq st body names hch]
    cases h0 : mapGet st.channels ch with
    | none =>
        rw [subsOf, h0] at hr
        exact absurd hr (List.not_mem_nil _)
    | some set =>
      have hset : subsOf st ch = set := by rw [subsOf, h0]; rfl
      have hreg := reg_of_inv st ch hinv
      apply count_flatMap_one _ _ names ch hnd hcin
      · rw [h0]
        apply count_filterMap_one set _ _ r (hset ▸ hsnd) (hset ▸ hr)
        · rw [if_neg (fun he => Bool.noConfusion (hnex ▸ he)),
            if_pos (hreg r hr)]
        · intro x hx hfx
          by_cases hxe : (match jget body "socket_id" with
              | some (Json.str x2) => x == x2
              | _ => false) = true
          · rw [if_pos hxe] at hfx
            exact Option.noConfusion hfx
          · rw [if_neg hxe] at hfx
            by_cases hrg : (mapGet st.clients x).isSome = true
            · rw [if_pos hrg] at hfx
              have hd := congrArg Send.dest (Option.some.inj hfx)
              exact hd
            · rw [if_neg hrg] at hfx
              exact Option.noConfusion hfx
      · intro c2 hc2 x hx
        cases h2 : mapGet st.channels c2 with
        | none =>
            rw [h2] at hx
            exact absurd hx (List.not_mem_nil _)
        | some s2 =>
            rw [h2] at hx
            obtain ⟨s, hs, hf⟩ := List.mem_filterMap.mp hx
            by_cases hxe : (match jget body "socket_id" with
                | some (Json.str x2) => s == x2
                | _ => false) = true
            · rw [if_pos hxe] at hf
              exact Option.noConfusion hf
            · rw [if_neg hxe] at hf
              by_cases hrg : (mapGet st.clients s).isSome = true
              · rw [if_pos hrg] at hf
                intro he
                rw [← Option.some.inj hf] at he
                injection he with h1 h2
                injection h2 with h3 h4 h5
                exact hc2 h4
              · rw [if_neg hrg] at hf
                exact Option.noConfusion hf
  · intro hex f h
    unfold broadcast at h
    dsimp only at h
    obtain ⟨chv, hchv, hmem⟩ := List.mem_flatMap.mp h
    cases chv with
    | null => exact absurd hmem (List.not_mem_nil _)
    | bool b => exact absurd hmem (List.not_mem_nil _)
    | num n => exact absurd hmem (List.not_mem_nil _)
    | arr xs => exact absurd hmem (List.not_mem_nil _)
    | obj fs => exact absurd hmem (List.not_mem_nil _)
    | str c =>
        dsimp only at hmem
        cases h0 : mapGet st.channels c with
        | none =>
            rw [h0] at hmem
            exact absurd hmem (List.not_mem_nil _)
        | some set =>
            rw [h0] at hmem
            obtain ⟨s, hs, hf⟩ := List.mem_filterMap.mp hmem
            rw [hex] at hf
            dsimp only at hf
            by_cases hse : (s == ex) = true
            · rw [if_pos hse] at hf
              exact Option.noConfusion hf
            · rw [if_neg hse] at hf
              by_cases hrg : (mapGet st.clients s).isSome = true
              · rw [if_pos hrg] at hf
                have hd := congrArg Send.dest (Option.some.inj hf)
                dsimp only at hd
                exact hse (beq_iff_eq.mpr hd)
              · rw [if_neg hrg] at hf
                exact Option.noConfusion hf

/-- Witness for the amended C8: exactly-once delivery to X in the two-
    subscriber scenario, and no state change. -/
theorem C8_broadcast_exactly_once_witness :
    (broadcast stXY bodyXY).2.count
      ⟨"X", OutFrame.broadcastEvt (jget bodyXY "name") "test-channel"
        (jget bodyXY "data")⟩ = 1 ∧
    (broadcast stXY bodyXY).1 = stXY :=
  ⟨(C8_broadcast_exactly_once stXY bodyXY ["test-channel"] "test-channel" "X" "Z"
      (stateInv_two "X" "Y" "test-channel" none none [] (by decide))).2.1
    (by decide) (by decide) (by decide) (by decide) (by decide) (by decide),
   (C8_broadcast_exactly_once stXY bodyXY ["test-channel"] "test-channel" "X" "Z"
      (stateInv_two "X" "Y" "test-channel" none none [] (by decide))).1⟩
